import Mathlib

/-!
# PrintTrace — formal verification of spec claims

Shallow embedding of the PrintTrace image-to-outline pipeline
(`src/ImageProcessor.cpp`, `src/PrintTraceAPI.cpp`).  C++ `double`/`float`
arithmetic is modelled with exact rationals (`ℚ`), pixel coordinates
(`cv::Point`) with `ℤ × ℤ`, floating-point points (`cv::Point2f`) with
`ℚ × ℚ`.  OpenCV raster primitives (blurs, thresholds, morphology, …) that
only flow data between the steps the claims speak about are abstracted as
fields of explicit operation structures; all deciding control flow is
translated from the source.
-/

/-- A 2-D point with exact rational coordinates, modelling OpenCV `Point2f`. -/
abbrev Point2f : Type := ℚ × ℚ

/-- A 2-D point with integer coordinates, modelling OpenCV `Point`. -/
abbrev Pt : Type := ℤ × ℤ

/-- A pixel contour, modelling `std::vector<cv::Point>`. -/
abbrev Contour : Type := List Pt

/-! ## orderCorners (ImageProcessor.cpp:359-398) -/

/-- The lexicographic order on (key, original index) pairs.  `orderCorners`
sorts `std::pair<float,int>` values with `std::sort`, whose default
comparison on pairs is exactly this lexicographic order; since the index
components are pairwise distinct the sorted sequence is unique, so any
comparison sort produces the same list. -/
def pairLe (p q : ℚ × ℕ) : Prop :=
  p.1 < q.1 ∨ (p.1 = q.1 ∧ p.2 ≤ q.2)

instance : DecidableRel pairLe := fun p q => by
  unfold pairLe; infer_instance

instance : IsTotal (ℚ × ℕ) pairLe := by
  constructor
  intro a b
  rcases lt_trichotomy a.1 b.1 with h | h | h
  · exact Or.inl (Or.inl h)
  · rcases Nat.le_total a.2 b.2 with h2 | h2
    · exact Or.inl (Or.inr ⟨h, h2⟩)
    · exact Or.inr (Or.inr ⟨h.symm, h2⟩)
  · exact Or.inr (Or.inl h)

instance : IsTrans (ℚ × ℕ) pairLe := by
  constructor
  rintro a b c (hab | ⟨hab, hab2⟩) (hbc | ⟨hbc, hbc2⟩)
  · exact Or.inl (hab.trans hbc)
  · exact Or.inl (hbc ▸ hab)
  · exact Or.inl (hab ▸ hbc)
  · exact Or.inr ⟨hab.trans hbc, hab2.trans hbc2⟩

theorem pairLe_antisymm {a b : ℚ × ℕ} (h1 : pairLe a b) (h2 : pairLe b a) :
    a = b := by
  rcases h1 with h1 | ⟨h1, h1'⟩ <;> rcases h2 with h2 | ⟨h2, h2'⟩
  · exact absurd (h1.trans h2) (lt_irrefl _)
  · exact absurd h1 (h2 ▸ lt_irrefl _)
  · exact absurd h2 (h1 ▸ lt_irrefl _)
  · exact Prod.ext h1 (Nat.le_antisymm h1' h2')

/-- The loop at ImageProcessor.cpp:370-374: build (key, original index)
pairs for every corner, for a key function (`x+y` or `y-x`). -/
def keyedPairs (f : Point2f → ℚ) (corners : List Point2f) : List (ℚ × ℕ) :=
  corners.enum.map (fun ip => (f ip.2, ip.1))

/-- Embedding of `ImageProcessor::orderCorners` (ImageProcessor.cpp:359-398).
If the input does not hold exactly 4 points it is returned unchanged.
Otherwise (value, index) pairs are built for the coordinate sums `x+y` and
differences `y-x`, sorted, and the result is assembled as
`[min-sum, min-diff, max-sum, max-diff]`, i.e. `{TL, TR, BR, BL}`. -/
def orderCorners (corners : List Point2f) : List Point2f :=
  if corners.length ≠ 4 then corners
  else
    let ssums := List.insertionSort pairLe (keyedPairs (fun p => p.1 + p.2) corners)
    let sdiffs := List.insertionSort pairLe (keyedPairs (fun p => p.2 - p.1) corners)
    [ corners.getD (ssums.getD 0 (0, 0)).2 (0, 0),
      corners.getD (sdiffs.getD 0 (0, 0)).2 (0, 0),
      corners.getD (ssums.getD 3 (0, 0)).2 (0, 0),
      corners.getD (sdiffs.getD 3 (0, 0)).2 (0, 0) ]

/-- C10: a list whose length is not 4 passes through `orderCorners` untouched. -/
theorem orderCorners_of_length_ne_four (corners : List Point2f)
    (h : corners.length ≠ 4) : orderCorners corners = corners := by
  simp [orderCorners, h]

/-- C10 witness: a concrete 3-point list is returned unchanged. -/
theorem orderCorners_of_length_ne_four_witness :
    orderCorners [(1, 2), (3, 4), (5, 6)] = [(1, 2), (3, 4), (5, 6)] :=
  orderCorners_of_length_ne_four [(1, 2), (3, 4), (5, 6)] (by decide)

theorem pairLe_refl (a : ℚ × ℕ) : pairLe a a := Or.inr ⟨rfl, le_refl _⟩

/-- In the sorted (value, index) list, a strict minimum ends up first. -/
theorem insertionSort_getD_zero (L : List (ℚ × ℕ)) (x : ℚ × ℕ) (hx : x ∈ L)
    (hmin : ∀ y ∈ L, y ≠ x → pairLe x y) :
    (List.insertionSort pairLe L).getD 0 (0, 0) = x := by
  have hperm := List.perm_insertionSort pairLe L
  have hsorted := List.sorted_insertionSort pairLe L
  set S := List.insertionSort pairLe L with hS
  rcases hs : S with _ | ⟨y0, T⟩
  · exact absurd (hperm.mem_iff.2 hx) (by simp [hs])
  · have hy0L : y0 ∈ L := hperm.mem_iff.1 (by simp [hs])
    by_cases hxy : y0 = x
    · simp [hxy]
    · have hxS : x ∈ T := by
        have := hperm.mem_iff.2 hx
        rw [hs] at this
        rcases List.mem_cons.1 this with h | h
        · exact absurd h.symm hxy
        · exact h
      have h1 : pairLe y0 x := by
        rw [hs] at hsorted
        exact List.rel_of_sorted_cons hsorted x hxS
      have h2 : pairLe x y0 := hmin y0 hy0L hxy
      exact absurd (pairLe_antisymm h1 h2) hxy

/-- In the sorted (value, index) list of length 4, a strict maximum ends up
in position 3 (the last). -/
theorem insertionSort_getD_three (L : List (ℚ × ℕ)) (hlen : L.length = 4)
    (x : ℚ × ℕ) (hx : x ∈ L)
    (hmax : ∀ y ∈ L, y ≠ x → pairLe y x) :
    (List.insertionSort pairLe L).getD 3 (0, 0) = x := by
  have hperm := List.perm_insertionSort pairLe L
  have hsorted := List.sorted_insertionSort pairLe L
  set S := List.insertionSort pairLe L with hS
  have hlenS : S.length = 4 := by rw [hperm.length_eq, hlen]
  rcases S with _ | ⟨y0, _ | ⟨y1, _ | ⟨y2, _ | ⟨y3, _ | ⟨y4, T⟩⟩⟩⟩⟩ <;>
    simp only [List.length] at hlenS <;> try omega
  have hmemL : ∀ y, y ∈ [y0, y1, y2, y3] → y ∈ L := fun y hy => hperm.mem_iff.1 hy
  simp only [List.sorted_cons] at hsorted
  by_cases h3 : y3 = x
  · simp [h3]
  · have hy3x : pairLe y3 x := hmax y3 (hmemL y3 (by simp)) h3
    have hxS : x ∈ [y0, y1, y2, y3] := hperm.mem_iff.2 hx
    simp only [List.mem_cons, List.not_mem_nil, or_false] at hxS
    have hxy3 : pairLe x y3 := by
      rcases hxS with h | h | h | h
      · exact h ▸ hsorted.1 y3 (by simp)
      · exact h ▸ hsorted.2.1 y3 (by simp)
      · exact h ▸ hsorted.2.2.1 y3 (by simp)
      · exact absurd h.symm h3
    exact absurd (pairLe_antisymm hy3x hxy3) h3

/-- Coordinate sum `x+y` of the `i`-th input point. -/
def sumAt (pts : List Point2f) (i : ℕ) : ℚ :=
  (pts.getD i (0, 0)).1 + (pts.getD i (0, 0)).2

/-- Coordinate difference `y-x` of the `i`-th input point. -/
def diffAt (pts : List Point2f) (i : ℕ) : ℚ :=
  (pts.getD i (0, 0)).2 - (pts.getD i (0, 0)).1

theorem keyedPairs_length (f : Point2f → ℚ) (pts : List Point2f) :
    (keyedPairs f pts).length = pts.length := by
  simp [keyedPairs]

theorem keyedPairs_mem (f : Point2f → ℚ) (pts : List Point2f)
    (hlen : pts.length = 4) (y : ℚ × ℕ) :
    y ∈ keyedPairs f pts ↔ ∃ j, j < 4 ∧ y = (f (pts.getD j (0, 0)), j) := by
  rcases pts with _ | ⟨a, _ | ⟨b, _ | ⟨c, _ | ⟨d, _ | ⟨e, T⟩⟩⟩⟩⟩ <;>
    simp only [List.length] at hlen <;> try omega
  simp only [keyedPairs, List.enum, List.enumFrom, List.map]
  constructor
  · intro hy
    simp only [List.mem_cons, List.not_mem_nil, or_false] at hy
    rcases hy with rfl | rfl | rfl | rfl
    · exact ⟨0, by omega, rfl⟩
    · exact ⟨1, by omega, rfl⟩
    · exact ⟨2, by omega, rfl⟩
    · exact ⟨3, by omega, rfl⟩
  · rintro ⟨j, hj, rfl⟩
    interval_cases j <;> simp

/-- C1 (amended): with a unique minimiser/maximiser of the coordinate sums
and of the coordinate differences, `orderCorners` returns exactly
`[TL, TR, BR, BL]` = `[min-sum, min-diff, max-sum, max-diff]` points.
(The four selected points need not be pairwise distinct, so the result is
not in general a permutation of the input.) -/
theorem orderCorners_extreme_positions (pts : List Point2f) (i1 i2 i3 i4 : ℕ)
    (hlen : pts.length = 4)
    (hi1 : i1 < 4) (hi2 : i2 < 4) (hi3 : i3 < 4) (hi4 : i4 < 4)
    (hmin : ∀ j, j < 4 → j ≠ i1 → sumAt pts i1 < sumAt pts j)
    (hmax : ∀ j, j < 4 → j ≠ i2 → sumAt pts j < sumAt pts i2)
    (hdmin : ∀ j, j < 4 → j ≠ i3 → diffAt pts i3 < diffAt pts j)
    (hdmax : ∀ j, j < 4 → j ≠ i4 → diffAt pts j < diffAt pts i4) :
    orderCorners pts =
      [pts.getD i1 (0, 0), pts.getD i3 (0, 0), pts.getD i2 (0, 0),
       pts.getD i4 (0, 0)] := by
  have e1 : (List.insertionSort pairLe
      (keyedPairs (fun p => p.1 + p.2) pts)).getD 0 (0, 0) = (sumAt pts i1, i1) := by
    apply insertionSort_getD_zero
    · exact (keyedPairs_mem _ pts hlen _).2 ⟨i1, hi1, rfl⟩
    · intro y hy hne
      obtain ⟨j, hj, rfl⟩ := (keyedPairs_mem _ pts hlen _).1 hy
      have hji : j ≠ i1 := by rintro rfl; exact hne rfl
      exact Or.inl (hmin j hj hji)
  have e2 : (List.insertionSort pairLe
      (keyedPairs (fun p => p.1 + p.2) pts)).getD 3 (0, 0) = (sumAt pts i2, i2) := by
    apply insertionSort_getD_three
    · rw [keyedPairs_length, hlen]
    · exact (keyedPairs_mem _ pts hlen _).2 ⟨i2, hi2, rfl⟩
    · intro y hy hne
      obtain ⟨j, hj, rfl⟩ := (keyedPairs_mem _ pts hlen _).1 hy
      have hji : j ≠ i2 := by rintro rfl; exact hne rfl
      exact Or.inl (hmax j hj hji)
  have e3 : (List.insertionSort pairLe
      (keyedPairs (fun p => p.2 - p.1) pts)).getD 0 (0, 0) = (diffAt pts i3, i3) := by
    apply insertionSort_getD_zero
    · exact (keyedPairs_mem _ pts hlen _).2 ⟨i3, hi3, rfl⟩
    · intro y hy hne
      obtain ⟨j, hj, rfl⟩ := (keyedPairs_mem _ pts hlen _).1 hy
      have hji : j ≠ i3 := by rintro rfl; exact hne rfl
      exact Or.inl (hdmin j hj hji)
  have e4 : (List.insertionSort pairLe
      (keyedPairs (fun p => p.2 - p.1) pts)).getD 3 (0, 0) = (diffAt pts i4, i4) := by
    apply insertionSort_getD_three
    · rw [keyedPairs_length, hlen]
    · exact (keyedPairs_mem _ pts hlen _).2 ⟨i4, hi4, rfl⟩
    · intro y hy hne
      obtain ⟨j, hj, rfl⟩ := (keyedPairs_mem _ pts hlen _).1 hy
      have hji : j ≠ i4 := by rintro rfl; exact hne rfl
      exact Or.inl (hdmax j hj hji)
  simp only [orderCorners, hlen, ne_eq, not_true_eq_false, if_false, e1, e2, e3, e4]

/-- C1 counterexample: the four points (0,-5), (0,0), (2,1), (1,3) have a
unique minimiser and maximiser for both `x+y` (-5, 0, 3, 4) and `y-x`
(-5, 0, -1, 2), yet (0,-5) is at once min-sum and min-diff and (1,3) at
once max-sum and max-diff, so `orderCorners` duplicates them and the
result is not a permutation of the input. -/
theorem orderCorners_counterexample :
    sumAt [((0:ℚ), (-5:ℚ)), (0, 0), (2, 1), (1, 3)] 0 <
        sumAt [((0:ℚ), (-5:ℚ)), (0, 0), (2, 1), (1, 3)] 1 ∧
    sumAt [((0:ℚ), (-5:ℚ)), (0, 0), (2, 1), (1, 3)] 0 <
        sumAt [((0:ℚ), (-5:ℚ)), (0, 0), (2, 1), (1, 3)] 2 ∧
    sumAt [((0:ℚ), (-5:ℚ)), (0, 0), (2, 1), (1, 3)] 0 <
        sumAt [((0:ℚ), (-5:ℚ)), (0, 0), (2, 1), (1, 3)] 3 ∧
    sumAt [((0:ℚ), (-5:ℚ)), (0, 0), (2, 1), (1, 3)] 1 <
        sumAt [((0:ℚ), (-5:ℚ)), (0, 0), (2, 1), (1, 3)] 3 ∧
    sumAt [((0:ℚ), (-5:ℚ)), (0, 0), (2, 1), (1, 3)] 2 <
        sumAt [((0:ℚ), (-5:ℚ)), (0, 0), (2, 1), (1, 3)] 3 ∧
    diffAt [((0:ℚ), (-5:ℚ)), (0, 0), (2, 1), (1, 3)] 0 <
        diffAt [((0:ℚ), (-5:ℚ)), (0, 0), (2, 1), (1, 3)] 1 ∧
    diffAt [((0:ℚ), (-5:ℚ)), (0, 0), (2, 1), (1, 3)] 0 <
        diffAt [((0:ℚ), (-5:ℚ)), (0, 0), (2, 1), (1, 3)] 2 ∧
    diffAt [((0:ℚ), (-5:ℚ)), (0, 0), (2, 1), (1, 3)] 0 <
        diffAt [((0:ℚ), (-5:ℚ)), (0, 0), (2, 1), (1, 3)] 3 ∧
    diffAt [((0:ℚ), (-5:ℚ)), (0, 0), (2, 1), (1, 3)] 1 <
        diffAt [((0:ℚ), (-5:ℚ)), (0, 0), (2, 1), (1, 3)] 3 ∧
    diffAt [((0:ℚ), (-5:ℚ)), (0, 0), (2, 1), (1, 3)] 2 <
        diffAt [((0:ℚ), (-5:ℚ)), (0, 0), (2, 1), (1, 3)] 3 ∧
    orderCorners [((0:ℚ), (-5:ℚ)), (0, 0), (2, 1), (1, 3)] =
        [(0, -5), (0, -5), (1, 3), (1, 3)] ∧
    ¬ (orderCorners [((0:ℚ), (-5:ℚ)), (0, 0), (2, 1), (1, 3)]).Perm
        [((0:ℚ), (-5:ℚ)), (0, 0), (2, 1), (1, 3)] :=
  of_decide_eq_true (by with_unfolding_all rfl)

/-- C1 witness: the unit square given in shuffled order comes back ordered
TL, TR, BR, BL. -/
theorem orderCorners_extreme_positions_witness :
    orderCorners [((1:ℚ), (0:ℚ)), (0, 0), (1, 1), (0, 1)] =
      [(0, 0), (1, 0), (1, 1), (0, 1)] :=
  orderCorners_extreme_positions [((1:ℚ), (0:ℚ)), (0, 0), (1, 1), (0, 1)]
    1 2 0 3 rfl (by omega) (by omega) (by omega) (by omega)
    (of_decide_eq_true (by with_unfolding_all rfl))
    (of_decide_eq_true (by with_unfolding_all rfl))
    (of_decide_eq_true (by with_unfolding_all rfl))
    (of_decide_eq_true (by with_unfolding_all rfl))

/-! ## ProcessingParams (ImageProcessor.hpp:12-91)

The fields of `ImageProcessor::ProcessingParams` used by the embedded
functions, with the header's default values.  `double` fields are modelled
as `ℚ`, `int` fields as `ℤ`. -/

structure ProcessingParams where
  lightboxWidthPx : ℤ := 3240
  lightboxHeightPx : ℤ := 3240
  lightboxWidthMM : ℚ := 162
  lightboxHeightMM : ℚ := 162
  cannyLower : ℚ := 50
  cannyUpper : ℚ := 150
  cannyAperture : ℤ := 3
  claheClipLimit : ℚ := 2
  claheTileSize : ℤ := 8
  disableMorphology : Bool := false
  morphKernelSize : ℤ := 5
  useAdaptiveThreshold : Bool := true
  manualThreshold : ℚ := 0
  thresholdOffset : ℚ := 0
  mergeNearbyContours : Bool := true
  contourMergeDistanceMM : ℚ := 5
  minContourArea : ℚ := 500
  minSolidity : ℚ := 3/10
  maxAspectRatio : ℚ := 20
  polygonEpsilonFactor : ℚ := 1/200
  forceConvex : Bool := false
  enableSubPixelRefinement : Bool := true
  cornerWinSize : ℤ := 5
  cornerZeroZone : ℤ := -1
  validateClosedContour : Bool := true
  minPerimeter : ℚ := 100
  dilationAmountMM : ℚ := 0
  enableSmoothing : Bool := true
  smoothingAmountMM : ℚ := 1/2
  smoothingMode : ℤ := 1
  enableDebugOutput : Bool := false
  verboseOutput : Bool := true
deriving DecidableEq

/-! ## Contour geometry: contourArea / boundingRect -/

/-- The cyclic shoelace sum of an integer contour. -/
def shoelaceSum (l : Contour) : ℤ :=
  ((l.zip (l.drop 1 ++ l.take 1)).map
    (fun pq => pq.1.1 * pq.2.2 - pq.2.1 * pq.1.2)).sum

/-- OpenCV `cv::contourArea`: half the absolute value of the cyclic
shoelace sum (exact for integer vertices). -/
def contourArea (l : Contour) : ℚ :=
  (|shoelaceSum l| : ℤ) / 2

/-- An integer rectangle, modelling `cv::Rect`. -/
structure RectZ where
  x : ℤ
  y : ℤ
  w : ℤ
  h : ℤ
deriving DecidableEq

/-- OpenCV `cv::boundingRect`: the minimal up-right integer rectangle
containing the points; its width/height are max − min + 1. -/
def boundingRect (l : Contour) : RectZ :=
  match l with
  | [] => ⟨0, 0, 0, 0⟩
  | p :: ps =>
    let minX := ps.foldl (fun m q => min m q.1) p.1
    let maxX := ps.foldl (fun m q => max m q.1) p.1
    let minY := ps.foldl (fun m q => min m q.2) p.2
    let maxY := ps.foldl (fun m q => max m q.2) p.2
    ⟨minX, minY, maxX - minX + 1, maxY - minY + 1⟩

/-- The aspect-ratio normalisation at ImageProcessor.cpp:230-231:
bounding-rectangle width over height, inverted when below 1 so the result
is always ≥ 1. -/
def aspectRatioOf (l : Contour) : ℚ :=
  let br := boundingRect l
  let a : ℚ := (br.w : ℚ) / (br.h : ℚ)
  if a < 1 then 1 / a else a

/-! ## detectCornersFromContour sanity checks (ImageProcessor.cpp:223-256) -/

/-- Embedding of the geometric sanity checks of
`ImageProcessor::detectCornersFromContour` (ImageProcessor.cpp:223-256):
given the candidate polygon `approx` found by the tolerance-search loop and
the pixel count `maskTotal` of the mask (`mask.total()`), a 4-vertex
candidate is accepted — converted to float points and returned — exactly
when its area exceeds 10% of the image area, its `area / rectArea`
solidity exceeds `minSolidity` (where `rectArea` is the bounding-rectangle
area, line 227-228), and its normalised aspect ratio is below
`maxAspectRatio`; anything else yields the empty (failure) result. -/
def sanityCheckCandidate (approx : Contour) (maskTotal : ℕ)
    (p : ProcessingParams) : List Point2f :=
  if approx.length = 4 then
    let area := contourArea approx
    let br := boundingRect approx
    let rectArea : ℚ := (br.w : ℚ) * (br.h : ℚ)
    let solidity := area / rectArea
    if area > (maskTotal : ℚ) * (1/10) ∧ solidity > p.minSolidity ∧
        aspectRatioOf approx < p.maxAspectRatio then
      approx.map (fun pt => ((pt.1 : ℚ), (pt.2 : ℚ)))
    else []
  else []

/-! Convex hull, for the spec's notion of solidity. -/

/-- Lexicographic order on integer points (x, then y). -/
def ptLex (a b : Pt) : Prop :=
  a.1 < b.1 ∨ (a.1 = b.1 ∧ a.2 ≤ b.2)

instance : DecidableRel ptLex := fun a b => by
  unfold ptLex; infer_instance

/-- Cross product of `a - o` and `b - o`. -/
def crossO (o a b : Pt) : ℤ :=
  (a.1 - o.1) * (b.2 - o.2) - (a.2 - o.2) * (b.1 - o.1)

/-- One step of the monotone-chain construction: push `p`, popping points
that no longer make a strict left turn (hull kept in reverse order). -/
def hullPush (p : Pt) : List Pt → List Pt
  | b :: a :: rest =>
    if crossO a b p ≤ 0 then hullPush p (a :: rest) else p :: b :: a :: rest
  | l => p :: l

/-- Modelled from the spec: the spec defines solidity via the polygon's
convex hull ("Solidity: ratio of a shape's area to its convex hull's
area"); the hull construction (OpenCV `cv::convexHull`, not part of this
repository) is modelled with the standard monotone-chain algorithm. -/
def cvConvexHull (pts : List Pt) : List Pt :=
  let s := List.insertionSort ptLex pts
  let lower := s.foldl (fun h p => hullPush p h) []
  let upper := s.reverse.foldl (fun h p => hullPush p h) []
  lower.reverse.dropLast ++ upper.reverse.dropLast

/-- Modelled from the spec: C2's acceptance predicate as the spec words it —
a 4-vertex candidate passes when its area exceeds ~10% of the image area,
its solidity "defined as the polygon's area divided by the area of its
convex hull" exceeds the configured minimum, and its aspect ratio is below
the configured maximum. -/
def specAcceptCandidate (approx : Contour) (maskTotal : ℕ)
    (p : ProcessingParams) : Prop :=
  approx.length = 4 ∧
  contourArea approx > (maskTotal : ℚ) * (1/10) ∧
  contourArea approx / contourArea (cvConvexHull approx) > p.minSolidity ∧
  aspectRatioOf approx < p.maxAspectRatio

instance (approx : Contour) (maskTotal : ℕ) (p : ProcessingParams) :
    Decidable (specAcceptCandidate approx maskTotal p) := by
  unfold specAcceptCandidate; infer_instance

/-- C2 counterexample: the diamond (5,0),(10,5),(5,10),(0,5) in a 20×20
mask with `minSolidity = 0.6`: its convex hull is the diamond itself, so
the spec's solidity is 1 and every condition of the claim holds, yet the
code computes solidity against the bounding rectangle (50/121 ≈ 0.41) and
rejects the candidate, returning the empty result. -/
theorem sanityCheckCandidate_counterexample :
    specAcceptCandidate [((5:ℤ), (0:ℤ)), (10, 5), (5, 10), (0, 5)] 400
      { minSolidity := 3/5 } ∧
    sanityCheckCandidate [((5:ℤ), (0:ℤ)), (10, 5), (5, 10), (0, 5)] 400
      { minSolidity := 3/5 } = [] :=
  of_decide_eq_true (by with_unfolding_all rfl)

/-- C2 (amended): a 4-vertex candidate is accepted iff its area exceeds 10%
of the image area, its solidity — the polygon's area divided by the area of
its axis-aligned bounding rectangle — exceeds `minSolidity`, and its
normalised aspect ratio is below `maxAspectRatio`. -/
theorem sanityCheckCandidate_iff (approx : Contour) (maskTotal : ℕ)
    (p : ProcessingParams) :
    sanityCheckCandidate approx maskTotal p ≠ [] ↔
      approx.length = 4 ∧
      contourArea approx > (maskTotal : ℚ) * (1/10) ∧
      contourArea approx /
          (((boundingRect approx).w : ℚ) * ((boundingRect approx).h : ℚ)) >
        p.minSolidity ∧
      aspectRatioOf approx < p.maxAspectRatio := by
  simp only [sanityCheckCandidate]
  by_cases h4 : approx.length = 4
  · rw [if_pos h4]
    by_cases hacc : contourArea approx > (maskTotal : ℚ) * (1/10) ∧
        contourArea approx /
            (((boundingRect approx).w : ℚ) * ((boundingRect approx).h : ℚ)) >
          p.minSolidity ∧
        aspectRatioOf approx < p.maxAspectRatio
    · rw [if_pos hacc]
      have hne : approx ≠ [] := by intro h; rw [h] at h4; simp at h4
      exact iff_of_true (by simp [List.map_eq_nil_iff, hne]) ⟨h4, hacc⟩
    · rw [if_neg hacc]
      exact iff_of_false (by simp) (fun h => hacc h.2)
  · rw [if_neg h4]
    exact iff_of_false (by simp) (fun h => h4 h.1)

/-! ## validateContour (ImageProcessor.cpp:1296-1335) -/

/-- Closed polyline length — consecutive edges plus the closing edge —
modelling `cv::arcLength(contour, true)`.  The per-edge Euclidean length
(an irrational square root computed in `double` by the source) is
abstracted as a caller-supplied edge-length function `segLen`. -/
def arcLengthClosed (segLen : Pt → Pt → ℚ) (c : Contour) : ℚ :=
  ((c.zip (c.drop 1 ++ c.take 1)).map (fun pq => segLen pq.1 pq.2)).sum

/-- Embedding of `ImageProcessor::validateContour`
(ImageProcessor.cpp:1296-1335), parameterised by the edge/gap length
function (`cv::norm`).  Returns (validation verdict, whether the
closure-gap warning at line 1317 fired).  The self-intersection loop at
lines 1321-1331 deliberately performs no check in the source and has no
effect on the result. -/
def validateContour (segLen : Pt → Pt → ℚ) (c : Contour)
    (p : ProcessingParams) : Bool × Bool :=
  if c.length < 3 then (false, false)
  else if arcLengthClosed segLen c < p.minPerimeter then (false, false)
  else
    let gapWarn := p.validateClosedContour &&
      decide (segLen (c.getD 0 (0, 0)) (c.getD (c.length - 1) (0, 0)) > 5)
    (true, gapWarn)

/-- C4: `validateContour` fails exactly on fewer than 3 vertices or a
closed perimeter below `minPerimeter`; the closure-gap check can only fire
on contours that validate successfully (it is a warning, never a
failure). -/
theorem validateContour_false_iff (segLen : Pt → Pt → ℚ) (c : Contour)
    (p : ProcessingParams) :
    ((validateContour segLen c p).1 = false ↔
      c.length < 3 ∨ arcLengthClosed segLen c < p.minPerimeter) ∧
    ((validateContour segLen c p).2 = true →
      (validateContour segLen c p).1 = true) := by
  unfold validateContour
  split_ifs with h1 h2
  · simp [h1]
  · simp [h1, h2]
  · simp [h1, h2]

/-- C4 witness: a triangle with every edge of length 10 has perimeter 30,
above the configured minimum of 20, so it validates; its closure gap of 10
pixels exceeds the 5-pixel threshold yet only produces the warning — the
verdict stays `true`. -/
theorem validateContour_false_iff_witness :
    (validateContour (fun _ _ => 10) [((0:ℤ), (0:ℤ)), (1, 0), (0, 1)]
      { minPerimeter := 20 }).1 = true :=
  (validateContour_false_iff (fun _ _ => 10) [((0:ℤ), (0:ℤ)), (1, 0), (0, 1)]
      { minPerimeter := 20 }).2
    (of_decide_eq_true (by with_unfolding_all rfl))

/-! ## findObjectContour — threshold policy (ImageProcessor.cpp:827-842) -/

/-- A thresholding operation requested from OpenCV, inverted variants only
(`THRESH_BINARY_INV`): the object is darker than the lightbox, so
foreground and background are swapped. -/
inductive ThreshOp : Type
  | adaptiveInv
  | fixedInv (t : ℚ)
  | otsuInv
deriving DecidableEq

/-- The OpenCV threshold primitives used by `findObjectContour`, abstracted
over the raster type `M`. `otsuThresholdInv` returns the binarised image
together with the automatically chosen threshold value. -/
structure ThresholdOps (M : Type) where
  adaptiveThresholdInv : M → M
  thresholdInv : M → ℚ → M
  otsuThresholdInv : M → M × ℚ

/-- Embedding of the threshold-selection step of
`ImageProcessor::findObjectContour` (ImageProcessor.cpp:827-842): exactly
one branch runs, and the returned trace records the threshold operations
performed on the image, in order. -/
def selectThreshold {M : Type} (ops : ThresholdOps M) (gray : M)
    (p : ProcessingParams) : M × List ThreshOp :=
  if p.useAdaptiveThreshold then
    (ops.adaptiveThresholdInv gray, [ThreshOp.adaptiveInv])
  else if p.manualThreshold > 0 then
    (ops.thresholdInv gray p.manualThreshold,
     [ThreshOp.fixedInv p.manualThreshold])
  else
    let ot := ops.otsuThresholdInv gray
    if p.thresholdOffset ≠ 0 then
      (ops.thresholdInv gray (ot.2 + p.thresholdOffset),
       [ThreshOp.otsuInv, ThreshOp.fixedInv (ot.2 + p.thresholdOffset)])
    else (ot.1, [ThreshOp.otsuInv])

/-- C5: the threshold policy is mutually exclusive and prioritised:
adaptive if requested; otherwise manual when strictly positive; otherwise
Otsu, re-applied at the offset level exactly when the offset is nonzero. -/
theorem selectThreshold_policy {M : Type} (ops : ThresholdOps M) (gray : M)
    (p : ProcessingParams) :
    (p.useAdaptiveThreshold = true →
      selectThreshold ops gray p =
        (ops.adaptiveThresholdInv gray, [ThreshOp.adaptiveInv])) ∧
    (p.useAdaptiveThreshold = false → p.manualThreshold > 0 →
      selectThreshold ops gray p =
        (ops.thresholdInv gray p.manualThreshold,
         [ThreshOp.fixedInv p.manualThreshold])) ∧
    (p.useAdaptiveThreshold = false → p.manualThreshold ≤ 0 →
      p.thresholdOffset ≠ 0 →
      selectThreshold ops gray p =
        (ops.thresholdInv gray
          ((ops.otsuThresholdInv gray).2 + p.thresholdOffset),
         [ThreshOp.otsuInv,
          ThreshOp.fixedInv ((ops.otsuThresholdInv gray).2 + p.thresholdOffset)])) ∧
    (p.useAdaptiveThreshold = false → p.manualThreshold ≤ 0 →
      p.thresholdOffset = 0 →
      selectThreshold ops gray p =
        ((ops.otsuThresholdInv gray).1, [ThreshOp.otsuInv])) := by
  refine ⟨fun h1 => ?_, fun h1 h2 => ?_, fun h1 h2 h3 => ?_, fun h1 h2 h3 => ?_⟩
  · simp [selectThreshold, h1]
  · simp [selectThreshold, h1, h2]
  · simp [selectThreshold, h1, not_lt.2 h2, h3]
  · simp [selectThreshold, h1, not_lt.2 h2, h3]

/-- Trivial threshold operations over `ℕ`, for the C5 witness. -/
def natThreshOps : ThresholdOps ℕ :=
  ⟨fun m => m + 1, fun m _ => m + 2, fun m => (m + 3, 7)⟩

/-- C5 witness: with adaptive off, auto threshold (0) and offset 5, the
image is thresholded by Otsu and re-thresholded at `otsu + 5`. -/
theorem selectThreshold_policy_witness :
    selectThreshold natThreshOps 0
        { useAdaptiveThreshold := false, thresholdOffset := 5 } =
      (2, [ThreshOp.otsuInv, ThreshOp.fixedInv 12]) := by
  have h := (selectThreshold_policy natThreshOps 0
      { useAdaptiveThreshold := false, thresholdOffset := 5 }).2.2.1
    rfl (le_refl 0) (of_decide_eq_true (by with_unfolding_all rfl))
  rw [h]
  exact of_decide_eq_true (by with_unfolding_all rfl)

/-! ## dilateContour (ImageProcessor.cpp:1010-1090) -/

/-- C++ `static_cast<int>` on a `double`: truncation toward zero. -/
def truncQ (q : ℚ) : ℤ :=
  if 0 ≤ q then ⌊q⌋ else -⌊-q⌋

/-- The OpenCV raster primitives used by `dilateContour`, abstracted over
the mask type `M`: rasterising a filled polygon into a mask of a given
size, morphological dilation with an elliptical kernel of a given size,
and external-contour extraction. -/
structure DilateOps (M : Type) where
  fillPolyMask : ℤ × ℤ → Contour → M
  dilateMask : M → ℤ → M
  findContoursExt : M → List Contour

/-- The mask-coordinate offset of `dilateContour`
(ImageProcessor.cpp:1025-1030). -/
def dilateOffset (contour : Contour) (dilationMM pixelsPerMM : ℚ) : Pt :=
  let br := boundingRect contour
  let padding := truncQ (dilationMM * pixelsPerMM * 3)
  (-br.x + padding, -br.y + padding)

/-- The contours re-extracted from the dilated mask
(ImageProcessor.cpp:1024-1059). -/
def dilatedContoursOf {M : Type} (ops : DilateOps M) (contour : Contour)
    (dilationMM pixelsPerMM : ℚ) : List Contour :=
  let dilationPixels := dilationMM * pixelsPerMM
  let br := boundingRect contour
  let padding := truncQ (dilationPixels * 3)
  let imageSize := (br.w + 2 * padding, br.h + 2 * padding)
  let off := dilateOffset contour dilationMM pixelsPerMM
  let adjusted := contour.map (fun pt => (pt.1 + off.1, pt.2 + off.2))
  let mask := ops.fillPolyMask imageSize adjusted
  let kernelSize0 := truncQ (dilationPixels * 2 + 1)
  let kernelSize := if kernelSize0 < 3 then 3 else kernelSize0
  ops.findContoursExt (ops.dilateMask mask kernelSize)

/-- The max-area scan at ImageProcessor.cpp:1066-1075: running maximum
starting at 0 with a strict `>` test, so contours of area 0 select
nothing. -/
def largestAreaIdx (cs : List Contour) : Option ℕ :=
  (cs.enum.foldl
    (fun acc ic =>
      if contourArea ic.2 > acc.1 then (contourArea ic.2, some ic.1) else acc)
    ((0 : ℚ), (none : Option ℕ))).2

/-- Embedding of `ImageProcessor::dilateContour`
(ImageProcessor.cpp:1010-1090). -/
def dilateContour {M : Type} (ops : DilateOps M) (contour : Contour)
    (dilationMM pixelsPerMM : ℚ) (_p : ProcessingParams) : Contour :=
  if dilationMM ≤ 0 then contour
  else
    let dcs := dilatedContoursOf ops contour dilationMM pixelsPerMM
    if dcs = [] then contour
    else
      match largestAreaIdx dcs with
      | none => contour
      | some bestIdx =>
        let off := dilateOffset contour dilationMM pixelsPerMM
        (dcs.getD bestIdx []).map (fun pt => (pt.1 - off.1, pt.2 - off.2))

/-- C6: `dilateContour` never fails — it is a total function — and returns
the input contour unchanged (i) when the requested dilation is ≤ 0 mm,
(ii) when no contour can be re-extracted from the dilated mask, and
(iii) when the re-extracted contours all have zero area so the max-area
scan selects nothing. -/
theorem dilateContour_fallbacks {M : Type} (ops : DilateOps M) (c : Contour)
    (mm ppm : ℚ) (p : ProcessingParams) :
    (mm ≤ 0 → dilateContour ops c mm ppm p = c) ∧
    (dilatedContoursOf ops c mm ppm = [] → dilateContour ops c mm ppm p = c) ∧
    (largestAreaIdx (dilatedContoursOf ops c mm ppm) = none →
      dilateContour ops c mm ppm p = c) := by
  refine ⟨fun h => ?_, fun h => ?_, fun h => ?_⟩
  · simp [dilateContour, h]
  · by_cases h1 : mm ≤ 0
    · simp [dilateContour, h1]
    · simp only [dilateContour]
      rw [if_neg h1, if_pos h]
  · by_cases h1 : mm ≤ 0
    · simp [dilateContour, h1]
    · simp only [dilateContour]
      rw [if_neg h1]
      by_cases h2 : dilatedContoursOf ops c mm ppm = []
      · rw [if_pos h2]
      · rw [if_neg h2, h]

/-- Trivial dilation operations over `Unit` whose contour re-extraction
always comes back empty, for the C6 witness. -/
def unitDilateOps : DilateOps Unit :=
  ⟨fun _ _ => (), fun _ _ => (), fun _ => []⟩

/-- C6 witness: a negative dilation amount is a no-op, and a dilation whose
mask yields no contours falls back to the original contour. -/
theorem dilateContour_fallbacks_witness :
    dilateContour unitDilateOps [((0:ℤ), (0:ℤ)), (3, 0), (0, 3)] (-1) 2 {} =
        [((0:ℤ), (0:ℤ)), (3, 0), (0, 3)] ∧
    dilateContour unitDilateOps [((0:ℤ), (0:ℤ)), (3, 0), (0, 3)] 1 2 {} =
        [((0:ℤ), (0:ℤ)), (3, 0), (0, 3)] :=
  ⟨(dilateContour_fallbacks unitDilateOps _ (-1) 2 {}).1
      (of_decide_eq_true (by with_unfolding_all rfl)),
   (dilateContour_fallbacks unitDilateOps _ 1 2 {}).2.1 rfl⟩

/-! ## The C API result codes and exception mapping
(PrintTraceAPI.h:17-29, PrintTraceAPI.cpp:119-138) -/

/-- `PrintTraceResult` (PrintTraceAPI.h:17-29). -/
inductive PrintTraceResult : Type
  | success
  | invalidInput
  | fileNotFound
  | imageLoadFailed
  | imageTooSmall
  | noContours
  | noBoundary
  | noObject
  | dxfWriteFailed
  | invalidParameters
  | processingFailed
deriving DecidableEq

/-- The numeric values of `PrintTraceResult` (PrintTraceAPI.h:17-29). -/
def resultCode : PrintTraceResult → ℤ
  | .success => 0
  | .invalidInput => -1
  | .fileNotFound => -2
  | .imageLoadFailed => -3
  | .imageTooSmall => -4
  | .noContours => -5
  | .noBoundary => -6
  | .noObject => -7
  | .dxfWriteFailed => -8
  | .invalidParameters => -9
  | .processingFailed => -10

/-- Does the first character list start with the second? -/
def chListHasPre : List Char → List Char → Bool
  | [], _ => true
  | _ :: _, [] => false
  | a :: as, b :: bs => a == b && chListHasPre as bs

/-- Does `needle` occur as a contiguous run inside the second list? -/
def chListHasSub (needle : List Char) : List Char → Bool
  | [] => needle.isEmpty
  | c :: t => chListHasPre needle (c :: t) || chListHasSub needle t

/-- `what.find(needle) != std::string::npos` — substring containment. -/
def strFind (hay needle : String) : Bool :=
  chListHasSub needle.toList hay.toList

/-- Embedding of the anonymous-namespace helper `handleException`
(PrintTraceAPI.cpp:119-138): map an exception message to a result code by
substring matching, in source order.  Note the fifth test can never fire:
any message containing "No contours found for the object" also contains
"No contours found" and is caught by the third test. -/
def handleException (what : String) : PrintTraceResult :=
  if strFind what ("Failed to load image") then .imageLoadFailed
  else if strFind what ("too small") then .imageTooSmall
  else if strFind what ("No contours found") then .noContours
  else if strFind what ("4 corners") then .noBoundary
  else if strFind what ("No contours found for the object") then .noObject
  else .processingFailed

/-! ## findObjectContour — component selection (ImageProcessor.cpp:868-932) -/

/-- A non-background connected component: its pixel area
(`stats.at<int>(i, CC_STAT_AREA)`) and centroid. -/
structure CComp where
  area : ℤ
  cx : ℚ
  cy : ℚ
deriving DecidableEq

/-- Embedding of step 4 of `ImageProcessor::findObjectContour`
(ImageProcessor.cpp:868-932): choose the component indices that make up the
object mask.  `comps` lists the non-background components (so
`numComponents < 2` in the source is `comps = []` here), `cols`/`rows` is
the binary image size and `dist` the (abstracted) Euclidean distance used
by the centre-weighted score.  Failure paths throw the source's exact
message strings. -/
def selectComponents (dist : (ℚ × ℚ) → (ℚ × ℚ) → ℚ) (comps : List CComp)
    (cols rows : ℤ) (p : ProcessingParams) : Except String (List ℕ) :=
  if comps.length = 0 then .error ("No object components found")
  else if p.mergeNearbyContours then
    let valid := (comps.enum.filter
      (fun ic => (ic.2.area : ℚ) ≥ p.minContourArea)).map (fun ic => ic.1)
    if valid = [] then .error ("No valid object components found")
    else .ok valid
  else
    let center : ℚ × ℚ := (((cols / 2 : ℤ) : ℚ), ((rows / 2 : ℤ) : ℚ))
    let best := comps.enum.foldl
      (fun acc ic =>
        if (ic.2.area : ℚ) < p.minContourArea then acc
        else
          let nd := dist (ic.2.cx, ic.2.cy) center / ((min cols rows : ℤ) : ℚ)
          let score := (ic.2.area : ℚ) / (1 + nd)
          if score > acc.1 then (score, some ic.1) else acc)
      ((0 : ℚ), (none : Option ℕ))
    match best.2 with
    | none => .error ("No valid object component found")
    | some i => .ok [i]

deriving instance DecidableEq for Except

/-- C8: when no component passes the area (and, in single-best mode,
centering-scored) filters, `findObjectContour` throws "No valid object
components found" / "No valid object component found" / "No object
components found" — and `handleException` maps every one of these to
`PRINT_TRACE_ERROR_PROCESSING_FAILED` (-10), not to the distinct
`PRINT_TRACE_ERROR_NO_OBJECT` (-7) the claim (and error taxonomy) promise.
The handler's NO_OBJECT test is dead: its message is both never thrown and
shadowed by the earlier "No contours found" test, as the fifth conjunct
shows. -/
theorem noObject_error_code_bug :
    selectComponents (fun _ _ => 0) [⟨100, 0, 0⟩] 100 100
        { mergeNearbyContours := true, minContourArea := 500 } =
      .error ("No valid object components found") ∧
    selectComponents (fun _ _ => 0) [⟨100, 0, 0⟩] 100 100
        { mergeNearbyContours := false, minContourArea := 500 } =
      .error ("No valid object component found") ∧
    selectComponents (fun _ _ => 0) [] 100 100
        { mergeNearbyContours := true, minContourArea := 500 } =
      .error ("No object components found") ∧
    handleException ("No valid object components found") =
        PrintTraceResult.processingFailed ∧
    handleException ("No valid object component found") =
        PrintTraceResult.processingFailed ∧
    handleException ("No object components found") =
        PrintTraceResult.processingFailed ∧
    handleException ("No contours found for the object.") =
        PrintTraceResult.noContours ∧
    resultCode PrintTraceResult.processingFailed ≠
        resultCode PrintTraceResult.noObject :=
  of_decide_eq_true (by with_unfolding_all rfl)

/-! ## processImageToStage (ImageProcessor.cpp:1769-2007)

The staged pipeline.  OpenCV-heavy subroutines (`loadImage`,
`normalizeLighting`, `findObjectContour`, …) are fields of a
`PipelineOps` structure — arbitrary functions over an abstract raster
type `R` — while every piece of staging control flow, the corner-search
loop and the two inline corner fallbacks are translated from the source. -/

/-- `std::min_element` with a key: the first element with minimal key. -/
def firstMinBy (f : Pt → ℤ) : Contour → Pt
  | [] => (0, 0)
  | p :: ps => ps.foldl (fun m q => if f q < f m then q else m) p

/-- `std::max_element` with a key: the first element with maximal key. -/
def firstMaxBy (f : Pt → ℤ) : Contour → Pt
  | [] => (0, 0)
  | p :: ps => ps.foldl (fun m q => if f m < f q then q else m) p

/-- The corner-candidate filter of fallback 2
(ImageProcessor.cpp:1829-1857): points within 50 px of one of the four
extreme-coordinate combinations.  The source's else-if chain sets the same
flag in each branch, i.e. it is this disjunction. -/
def cornerCandidatesOf (bc : Contour) : Contour :=
  let minXP := firstMinBy (fun p => p.1) bc
  let maxXP := firstMaxBy (fun p => p.1) bc
  let minYP := firstMinBy (fun p => p.2) bc
  let maxYP := firstMaxBy (fun p => p.2) bc
  bc.filter (fun pt => decide (
    (|pt.1 - minXP.1| < 50 ∧ |pt.2 - minYP.2| < 50) ∨
    (|pt.1 - maxXP.1| < 50 ∧ |pt.2 - minYP.2| < 50) ∨
    (|pt.1 - maxXP.1| < 50 ∧ |pt.2 - maxYP.2| < 50) ∨
    (|pt.1 - minXP.1| < 50 ∧ |pt.2 - maxYP.2| < 50)))

/-- Rank of a vector's `atan2(y, x)` angle among the classes
(-π, 0) < 0 < (0, π) < π, giving an exact model of comparing `atan2`
values (the source compares `double` results of `atan2`; we assume those
comparisons agree with the real numbers they approximate). -/
def angRank (v : Pt) : ℕ :=
  if v.2 < 0 then 0
  else if v.2 = 0 ∧ 0 ≤ v.1 then 1
  else if 0 < v.2 then 2
  else 3

/-- Plain cross product of two vectors. -/
def crossV (u w : Pt) : ℤ := u.1 * w.2 - u.2 * w.1

/-- The strict angle comparator of the fallback-2 sort
(ImageProcessor.cpp:1871-1876): `atan2(a - c) < atan2(b - c)`, decided
exactly by angle class and cross product. -/
def angLtC (c : Pt) (a b : Pt) : Prop :=
  angRank (a.1 - c.1, a.2 - c.2) < angRank (b.1 - c.1, b.2 - c.2) ∨
  (angRank (a.1 - c.1, a.2 - c.2) = angRank (b.1 - c.1, b.2 - c.2) ∧
    crossV (a.1 - c.1, a.2 - c.2) (b.1 - c.1, b.2 - c.2) > 0)

instance (c : Pt) : DecidableRel (angLtC c) := fun a b => by
  unfold angLtC; infer_instance

/-- The non-strict counterpart used to run the sort (`std::sort` with a
strict comparator is unspecified on ties; we determinise with a stable
insertion sort, which agrees with it whenever angles are pairwise
distinct). -/
def angLeC (c : Pt) (a b : Pt) : Prop := ¬ angLtC c b a

instance (c : Pt) : DecidableRel (angLeC c) := fun a b => by
  unfold angLeC; infer_instance

/-- Fallback 2a (ImageProcessor.cpp:1859-1879): average the candidates to a
centre (integer division, as in the source's `Point` arithmetic), sort
them by angle around it, and keep the first 4. -/
def candidateCorners (cands : Contour) : Contour :=
  let n : ℤ := cands.length
  let center : Pt := ((cands.map (fun p => p.1)).sum / n,
                      (cands.map (fun p => p.2)).sum / n)
  (List.insertionSort (angLeC center) cands).take 4

/-- Fallback 2b (ImageProcessor.cpp:1881-1915): the 10th/90th percentile
inscribed rectangle.  `xCoords[xSize * 0.1]` is modelled as index
`n / 10` (and the 90th as `9 * n / 10`), the value of `floor(0.1 * n)`
for every list size that arises. -/
def percentileCorners (bc : Contour) : Contour :=
  let xs := List.insertionSort (fun a b : ℤ => a ≤ b) (bc.map (fun p => p.1))
  let ys := List.insertionSort (fun a b : ℤ => a ≤ b) (bc.map (fun p => p.2))
  let n := bc.length
  let x1 := xs.getD (n / 10) 0
  let x2 := xs.getD (9 * n / 10) 0
  let y1 := ys.getD (n / 10) 0
  let y2 := ys.getD (9 * n / 10) 0
  [(x1, y1), (x2, y1), (x2, y2), (x1, y2)]

/-- The corner-search loop of `processImageToStage`
(ImageProcessor.cpp:1800-1814): up to 10 attempts of
`approximatePolygon` starting at epsilon factor 0.02, adding 0.005 after
every failure; returns the last polygon and the found-4-corners flag. -/
def cornerSearchLoop (approxPoly : Contour → ℚ → Contour) (bc : Contour) :
    ℕ → ℚ → Contour → Contour × Bool
  | 0, _, cur => (cur, false)
  | n + 1, ef, _ =>
    let c := approxPoly bc ef
    if c.length = 4 then (c, true)
    else cornerSearchLoop approxPoly bc n (ef + 5/1000) c

/-- The corner fallback chain of `processImageToStage`
(ImageProcessor.cpp:1816-1920): convex hull + re-approximation, then
extreme-point candidates, then the percentile rectangle. -/
def fallbackCorners (approxPoly : Contour → ℚ → Contour)
    (hull : Contour → Contour) (bc : Contour) : Contour :=
  let corners := approxPoly (hull bc) (2/100)
  if corners.length ≠ 4 then
    let cands := cornerCandidatesOf bc
    if cands.length ≥ 4 then candidateCorners cands
    else percentileCorners bc
  else corners

/-- `static_cast<int>` on both coordinates (ImageProcessor.cpp:1960-1963). -/
def truncPtF (p : Point2f) : Pt := (truncQ p.1, truncQ p.2)

/-- The subroutines called by `processImageToStage`, abstracted over the
raster type `R`.  Fallible ones (`throw` in the source) return
`Except String`.  `convexHullOp` is `cv::convexHull` (named apart to avoid
clashing with this file's `cvConvexHull` spec model). -/
structure PipelineOps (R : Type) where
  loadImage : String → Except String R
  convertToGrayscale : R → R
  normalizeLighting : R → ProcessingParams → R
  detectEdges : R → R → ProcessingParams → R
  findBoundaryContour : R → ProcessingParams → Except String Contour
  approximatePolygon : Contour → ℚ → Contour
  convexHullOp : Contour → Contour
  refineCorners : Contour → R → ProcessingParams → List Point2f
  warpImage : R → List Point2f → ℤ × ℤ → ℚ → ℚ → Except String (R × ℚ)
  findObjectContour : R → ProcessingParams → Except String Contour
  smoothContour : Contour → ℚ → ℚ → ProcessingParams → Contour
  dilateContour : Contour → ℚ → ℚ → ProcessingParams → Contour
  validateContour : Contour → ProcessingParams → Bool

/-- Embedding of `ImageProcessor::processImageToStage`
(ImageProcessor.cpp:1769-2007): load and grey-convert, then per-stage
early returns at the exact points of the source; corner search with
fallbacks, perspective warp, object contour, optional smoothing
(`enableSmoothing`, line 1977), optional dilation
(`dilationAmountMM > 0`, line 1987) and final validation.  Debug-image
pushes do not affect the returned values and are not modelled.
`target_stage` is the C `int`, non-negative in every caller. -/
def processImageToStage {R : Type} (ops : PipelineOps R) (inputPath : String)
    (params : ProcessingParams) (targetStage : ℕ) :
    Except String (R × Contour) :=
  match ops.loadImage inputPath with
  | .error e => .error e
  | .ok originalImg =>
    let grayImg := ops.convertToGrayscale originalImg
    if targetStage = 0 then .ok (grayImg, [])
    else
      let normalizedImg := ops.normalizeLighting grayImg params
      let boundaryEdges := ops.detectEdges normalizedImg originalImg params
      match ops.findBoundaryContour boundaryEdges params with
      | .error e => .error e
      | .ok boundaryContour =>
        let fc := cornerSearchLoop ops.approximatePolygon boundaryContour
          10 (2/100) []
        let corners := if fc.2 then fc.1
          else fallbackCorners ops.approximatePolygon ops.convexHullOp
            boundaryContour
        let refinedCorners := ops.refineCorners corners normalizedImg params
        match ops.warpImage grayImg refinedCorners
            (params.lightboxWidthPx, params.lightboxHeightPx)
            params.lightboxWidthMM params.lightboxHeightMM with
        | .error e => .error e
        | .ok wr =>
          if targetStage = 1 then .ok (wr.1, [])
          else
            let warpedNormalized := ops.normalizeLighting wr.1 params
            if targetStage = 2 then .ok (warpedNormalized, [])
            else if targetStage = 3 then
              .ok (wr.1, refinedCorners.map truncPtF)
            else
              match ops.findObjectContour wr.1 params with
              | .error e => .error e
              | .ok objectContour =>
                if targetStage = 4 then .ok (wr.1, objectContour)
                else
                  let c5 := if params.enableSmoothing then
                      ops.smoothContour objectContour params.smoothingAmountMM
                        wr.2 params
                    else objectContour
                  if targetStage = 5 then .ok (wr.1, c5)
                  else
                    let c6 := if params.dilationAmountMM > 0 then
                        ops.dilateContour c5 params.dilationAmountMM wr.2 params
                      else c5
                    if targetStage = 6 then .ok (wr.1, c6)
                    else if ops.validateContour c6 params then .ok (wr.1, c6)
                    else .error ("Final contour validation failed")

/-- C3: if a run to `Final` (stage 7) succeeds with result `(img, c)`, then
a run to `ObjectDetected` (stage 4) — even one whose smoothing, dilation
and validation subroutines were replaced arbitrarily, since they are never
executed — succeeds and returns the same raster together with the object
contour `c4` from which the final run's `c` is obtained by the optional
smoothing/dilation steps and a passed validation. -/
theorem processImageToStage_object_stage {R : Type} (ops ops' : PipelineOps R)
    (path : String) (params : ProcessingParams) (img : R) (c : Contour)
    (hLoad : ops'.loadImage = ops.loadImage)
    (hGray : ops'.convertToGrayscale = ops.convertToGrayscale)
    (hNorm : ops'.normalizeLighting = ops.normalizeLighting)
    (hEdges : ops'.detectEdges = ops.detectEdges)
    (hBound : ops'.findBoundaryContour = ops.findBoundaryContour)
    (hApprox : ops'.approximatePolygon = ops.approximatePolygon)
    (hHull : ops'.convexHullOp = ops.convexHullOp)
    (hRefine : ops'.refineCorners = ops.refineCorners)
    (hWarp : ops'.warpImage = ops.warpImage)
    (hObj : ops'.findObjectContour = ops.findObjectContour)
    (hrun : processImageToStage ops path params 7 = .ok (img, c)) :
    ∃ c4 ppm,
      processImageToStage ops' path params 4 = .ok (img, c4) ∧
      c = (if params.dilationAmountMM > 0 then
              ops.dilateContour
                (if params.enableSmoothing then
                   ops.smoothContour c4 params.smoothingAmountMM ppm params
                 else c4) params.dilationAmountMM ppm params
            else if params.enableSmoothing then
              ops.smoothContour c4 params.smoothingAmountMM ppm params
            else c4) ∧
      ops.validateContour c params = true := by
  unfold processImageToStage at hrun ⊢
  rw [hLoad, hGray, hNorm, hEdges, hBound, hApprox, hHull, hRefine, hWarp,
    hObj]
  cases hL : ops.loadImage path with
  | error e => rw [hL] at hrun; simp at hrun
  | ok originalImg =>
  rw [hL] at hrun
  dsimp only at hrun ⊢
  simp +decide only [if_true, if_false] at hrun ⊢
  cases hB : ops.findBoundaryContour
      (ops.detectEdges
        (ops.normalizeLighting (ops.convertToGrayscale originalImg) params)
        originalImg params) params with
  | error e => rw [hB] at hrun; simp at hrun
  | ok boundaryContour =>
  rw [hB] at hrun
  dsimp only at hrun ⊢
  cases hW : ops.warpImage (ops.convertToGrayscale originalImg)
      (ops.refineCorners
        (if (cornerSearchLoop ops.approximatePolygon boundaryContour 10
              (2/100) []).2 = true then
           (cornerSearchLoop ops.approximatePolygon boundaryContour 10
              (2/100) []).1
         else
           fallbackCorners ops.approximatePolygon ops.convexHullOp
             boundaryContour)
        (ops.normalizeLighting (ops.convertToGrayscale originalImg) params)
        params)
      (params.lightboxWidthPx, params.lightboxHeightPx)
      params.lightboxWidthMM params.lightboxHeightMM with
  | error e => rw [hW] at hrun; simp at hrun
  | ok wr =>
  rw [hW] at hrun
  dsimp only at hrun ⊢
  try simp +decide only [if_true, if_false] at hrun ⊢
  cases hO : ops.findObjectContour wr.1 params with
  | error e => rw [hO] at hrun; simp at hrun
  | ok objectContour =>
  rw [hO] at hrun
  dsimp only at hrun ⊢
  try simp +decide only [if_true, if_false] at hrun ⊢
  cases hV : ops.validateContour
      (if params.dilationAmountMM > 0 then
        ops.dilateContour
          (if params.enableSmoothing then
            ops.smoothContour objectContour params.smoothingAmountMM wr.2
              params
          else objectContour) params.dilationAmountMM wr.2 params
      else if params.enableSmoothing then
        ops.smoothContour objectContour params.smoothingAmountMM wr.2 params
      else objectContour) params with
  | false =>
    rw [hV] at hrun
    simp at hrun
  | true =>
    rw [hV] at hrun
    simp only [if_true, Except.ok.injEq, Prod.mk.injEq] at hrun
    obtain ⟨h1, h2⟩ := hrun
    refine ⟨objectContour, wr.2, ?_, h2.symm, ?_⟩
    · rw [h1]
    · rw [h2] at hV
      exact hV

/-- A concrete trivial pipeline over the raster type `Unit`, for the C3
witness: every stage succeeds. -/
def unitPipelineOps : PipelineOps Unit where
  loadImage := fun _ => .ok ()
  convertToGrayscale := fun r => r
  normalizeLighting := fun r _ => r
  detectEdges := fun r _ _ => r
  findBoundaryContour := fun _ _ => .ok [(0, 0), (100, 0), (100, 100), (0, 100)]
  approximatePolygon := fun c _ => c
  convexHullOp := fun c => c
  refineCorners := fun c _ _ => c.map (fun pt => ((pt.1 : ℚ), (pt.2 : ℚ)))
  warpImage := fun r _ _ _ _ => .ok (r, 20)
  findObjectContour := fun _ _ => .ok [(1, 1), (5, 1), (1, 5)]
  smoothContour := fun c _ _ _ => c
  dilateContour := fun c _ _ _ => c
  validateContour := fun _ _ => true

/-- Parameters for the C3 witness: smoothing and dilation disabled. -/
def pipelineWitnessParams : ProcessingParams :=
  { enableSmoothing := false }

/-- C3 witness: on the trivial pipeline, the `Final` run succeeds and the
theorem yields the matching `ObjectDetected` run. -/
theorem processImageToStage_object_stage_witness :
    ∃ c4 ppm,
      processImageToStage unitPipelineOps "img.jpg" pipelineWitnessParams 4 =
        .ok ((), c4) ∧
      [((1:ℤ), (1:ℤ)), (5, 1), (1, 5)] =
        (if pipelineWitnessParams.dilationAmountMM > 0 then
            unitPipelineOps.dilateContour
              (if pipelineWitnessParams.enableSmoothing then
                 unitPipelineOps.smoothContour c4
                   pipelineWitnessParams.smoothingAmountMM ppm
                   pipelineWitnessParams
               else c4) pipelineWitnessParams.dilationAmountMM ppm
              pipelineWitnessParams
          else if pipelineWitnessParams.enableSmoothing then
            unitPipelineOps.smoothContour c4
              pipelineWitnessParams.smoothingAmountMM ppm
              pipelineWitnessParams
          else c4) ∧
      unitPipelineOps.validateContour [((1:ℤ), (1:ℤ)), (5, 1), (1, 5)]
          pipelineWitnessParams = true :=
  processImageToStage_object_stage unitPipelineOps unitPipelineOps "img.jpg"
    pipelineWitnessParams () [(1, 1), (5, 1), (1, 5)]
    rfl rfl rfl rfl rfl rfl rfl rfl rfl rfl
    (of_decide_eq_true (by with_unfolding_all rfl))

/-! ## The C API parameters (PrintTraceAPI.cpp:150-383, 417-505)

`PrintTraceAPI.cpp` reads/writes the fields below of `PrintTraceParams`
(the committed header declares per-axis `lightbox_*` fields instead — the
translation unit follows the `warp_size` / `real_world_size_mm` layout it
actually uses). -/

structure PrintTraceParams where
  warp_size : ℤ
  real_world_size_mm : ℚ
  canny_lower : ℚ
  canny_upper : ℚ
  canny_aperture : ℤ
  clahe_clip_limit : ℚ
  clahe_tile_size : ℤ
  use_adaptive_threshold : Bool
  manual_threshold : ℚ
  threshold_offset : ℚ
  disable_morphology : Bool
  morph_kernel_size : ℤ
  merge_nearby_contours : Bool
  contour_merge_distance_mm : ℚ
  min_contour_area : ℚ
  min_solidity : ℚ
  max_aspect_ratio : ℚ
  polygon_epsilon_factor : ℚ
  enable_subpixel_refinement : Bool
  corner_win_size : ℤ
  validate_closed_contour : Bool
  min_perimeter : ℚ
  dilation_amount_mm : ℚ
  enable_smoothing : Bool
  smoothing_amount_mm : ℚ
  enable_debug_output : Bool
deriving DecidableEq

/-- `print_trace_get_default_params` (PrintTraceAPI.cpp:150-203). -/
def print_trace_get_default_params : PrintTraceParams where
  warp_size := 3240
  real_world_size_mm := 162
  canny_lower := 50
  canny_upper := 150
  canny_aperture := 3
  clahe_clip_limit := 2
  clahe_tile_size := 8
  use_adaptive_threshold := false
  manual_threshold := 0
  threshold_offset := 0
  disable_morphology := false
  morph_kernel_size := 5
  merge_nearby_contours := true
  contour_merge_distance_mm := 5
  min_contour_area := 500
  min_solidity := 3/10
  max_aspect_ratio := 20
  polygon_epsilon_factor := 1/200
  enable_subpixel_refinement := true
  corner_win_size := 5
  validate_closed_contour := true
  min_perimeter := 100
  dilation_amount_mm := 0
  enable_smoothing := false
  smoothing_amount_mm := 1/5
  enable_debug_output := false

/-- The documented parameter ranges (PrintTraceAPI.cpp:205-264). -/
structure PrintTraceParamRanges where
  warp_size_min : ℤ
  warp_size_max : ℤ
  real_world_size_mm_min : ℚ
  real_world_size_mm_max : ℚ
  canny_lower_min : ℚ
  canny_lower_max : ℚ
  canny_upper_min : ℚ
  canny_upper_max : ℚ
  canny_aperture_v0 : ℤ
  canny_aperture_v1 : ℤ
  canny_aperture_v2 : ℤ
  clahe_clip_limit_min : ℚ
  clahe_clip_limit_max : ℚ
  clahe_tile_size_min : ℤ
  clahe_tile_size_max : ℤ
  manual_threshold_min : ℚ
  manual_threshold_max : ℚ
  threshold_offset_min : ℚ
  threshold_offset_max : ℚ
  morph_kernel_size_min : ℤ
  morph_kernel_size_max : ℤ
  contour_merge_distance_mm_min : ℚ
  contour_merge_distance_mm_max : ℚ
  min_contour_area_min : ℚ
  min_contour_area_max : ℚ
  min_solidity_min : ℚ
  min_solidity_max : ℚ
  max_aspect_ratio_min : ℚ
  max_aspect_ratio_max : ℚ
  polygon_epsilon_factor_min : ℚ
  polygon_epsilon_factor_max : ℚ
  corner_win_size_min : ℤ
  corner_win_size_max : ℤ
  min_perimeter_min : ℚ
  min_perimeter_max : ℚ
  dilation_amount_mm_min : ℚ
  dilation_amount_mm_max : ℚ
  smoothing_amount_mm_min : ℚ
  smoothing_amount_mm_max : ℚ

/-- `print_trace_get_param_ranges` (PrintTraceAPI.cpp:205-264). -/
def print_trace_get_param_ranges : PrintTraceParamRanges where
  warp_size_min := 500
  warp_size_max := 8000
  real_world_size_mm_min := 10
  real_world_size_mm_max := 500
  canny_lower_min := 10
  canny_lower_max := 200
  canny_upper_min := 50
  canny_upper_max := 400
  canny_aperture_v0 := 3
  canny_aperture_v1 := 5
  canny_aperture_v2 := 7
  clahe_clip_limit_min := 1/2
  clahe_clip_limit_max := 8
  clahe_tile_size_min := 4
  clahe_tile_size_max := 16
  manual_threshold_min := 0
  manual_threshold_max := 255
  threshold_offset_min := -50
  threshold_offset_max := 50
  morph_kernel_size_min := 3
  morph_kernel_size_max := 15
  contour_merge_distance_mm_min := 1
  contour_merge_distance_mm_max := 20
  min_contour_area_min := 100
  min_contour_area_max := 10000
  min_solidity_min := 1/10
  min_solidity_max := 1
  max_aspect_ratio_min := 2
  max_aspect_ratio_max := 30
  polygon_epsilon_factor_min := 1/1000
  polygon_epsilon_factor_max := 1/50
  corner_win_size_min := 3
  corner_win_size_max := 15
  min_perimeter_min := 50
  min_perimeter_max := 2000
  dilation_amount_mm_min := 0
  dilation_amount_mm_max := 10
  smoothing_amount_mm_min := 1/10
  smoothing_amount_mm_max := 2

/-- Embedding of `print_trace_validate_params` (PrintTraceAPI.cpp:266-383):
the source's sequence of range checks against
`print_trace_get_param_ranges`, each returning
`PRINT_TRACE_ERROR_INVALID_PARAMETERS` on failure.  (The null-pointer
check has no counterpart for a by-value parameter record.) -/
def print_trace_validate_params (p : PrintTraceParams) : PrintTraceResult :=
  let ranges := print_trace_get_param_ranges
  if p.warp_size < ranges.warp_size_min ∨ p.warp_size > ranges.warp_size_max then
    .invalidParameters
  else if p.real_world_size_mm < ranges.real_world_size_mm_min ∨
      p.real_world_size_mm > ranges.real_world_size_mm_max then
    .invalidParameters
  else if p.canny_lower < ranges.canny_lower_min ∨
      p.canny_lower > ranges.canny_lower_max ∨
      p.canny_upper < ranges.canny_upper_min ∨
      p.canny_upper > ranges.canny_upper_max ∨
      p.canny_lower ≥ p.canny_upper then
    .invalidParameters
  else if ¬ (p.canny_aperture = ranges.canny_aperture_v0 ∨
      p.canny_aperture = ranges.canny_aperture_v1 ∨
      p.canny_aperture = ranges.canny_aperture_v2) then
    .invalidParameters
  else if p.clahe_clip_limit < ranges.clahe_clip_limit_min ∨
      p.clahe_clip_limit > ranges.clahe_clip_limit_max then
    .invalidParameters
  else if p.clahe_tile_size < ranges.clahe_tile_size_min ∨
      p.clahe_tile_size > ranges.clahe_tile_size_max then
    .invalidParameters
  else if p.manual_threshold < ranges.manual_threshold_min ∨
      p.manual_threshold > ranges.manual_threshold_max then
    .invalidParameters
  else if p.threshold_offset < ranges.threshold_offset_min ∨
      p.threshold_offset > ranges.threshold_offset_max then
    .invalidParameters
  else if p.morph_kernel_size < ranges.morph_kernel_size_min ∨
      p.morph_kernel_size > ranges.morph_kernel_size_max then
    .invalidParameters
  else if p.contour_merge_distance_mm < ranges.contour_merge_distance_mm_min ∨
      p.contour_merge_distance_mm > ranges.contour_merge_distance_mm_max then
    .invalidParameters
  else if p.min_contour_area < ranges.min_contour_area_min ∨
      p.min_contour_area > ranges.min_contour_area_max then
    .invalidParameters
  else if p.min_solidity < ranges.min_solidity_min ∨
      p.min_solidity > ranges.min_solidity_max then
    .invalidParameters
  else if p.max_aspect_ratio < ranges.max_aspect_ratio_min ∨
      p.max_aspect_ratio > ranges.max_aspect_ratio_max then
    .invalidParameters
  else if p.polygon_epsilon_factor < ranges.polygon_epsilon_factor_min ∨
      p.polygon_epsilon_factor > ranges.polygon_epsilon_factor_max then
    .invalidParameters
  else if p.corner_win_size < ranges.corner_win_size_min ∨
      p.corner_win_size > ranges.corner_win_size_max then
    .invalidParameters
  else if p.min_perimeter < ranges.min_perimeter_min ∨
      p.min_perimeter > ranges.min_perimeter_max then
    .invalidParameters
  else if p.dilation_amount_mm < ranges.dilation_amount_mm_min ∨
      p.dilation_amount_mm > ranges.dilation_amount_mm_max then
    .invalidParameters
  else if p.smoothing_amount_mm < ranges.smoothing_amount_mm_min ∨
      p.smoothing_amount_mm > ranges.smoothing_amount_mm_max then
    .invalidParameters
  else .success

/-- `convertParams` (PrintTraceAPI.cpp:15-59): the C parameters mapped onto
`ImageProcessor::ProcessingParams`.  The translation unit assigns the
legacy square-lightbox fields (`warpSize`, `realWorldSizeMM`), which stand
for the per-axis lightbox size used by `processImageToStage`; remaining
fields (e.g. `smoothingMode`) keep their C++ defaults. -/
def convertParams (p : PrintTraceParams) : ProcessingParams :=
  { lightboxWidthPx := p.warp_size
    lightboxHeightPx := p.warp_size
    lightboxWidthMM := p.real_world_size_mm
    lightboxHeightMM := p.real_world_size_mm
    cannyLower := p.canny_lower
    cannyUpper := p.canny_upper
    cannyAperture := p.canny_aperture
    claheClipLimit := p.clahe_clip_limit
    claheTileSize := p.clahe_tile_size
    useAdaptiveThreshold := p.use_adaptive_threshold
    manualThreshold := p.manual_threshold
    thresholdOffset := p.threshold_offset
    disableMorphology := p.disable_morphology
    morphKernelSize := p.morph_kernel_size
    mergeNearbyContours := p.merge_nearby_contours
    contourMergeDistanceMM := p.contour_merge_distance_mm
    minContourArea := p.min_contour_area
    minSolidity := p.min_solidity
    maxAspectRatio := p.max_aspect_ratio
    polygonEpsilonFactor := p.polygon_epsilon_factor
    enableSubPixelRefinement := p.enable_subpixel_refinement
    cornerWinSize := p.corner_win_size
    validateClosedContour := p.validate_closed_contour
    minPerimeter := p.min_perimeter
    dilationAmountMM := p.dilation_amount_mm
    enableSmoothing := p.enable_smoothing
    smoothingAmountMM := p.smoothing_amount_mm
    enableDebugOutput := p.enable_debug_output }

/-- Embedding of `print_trace_process_to_stage`
(PrintTraceAPI.cpp:417-505): null-pointer check (`pathValid`), file
existence check, parameter validation, then — and only then — the
pipeline, whose exceptions go through `handleException`. -/
def print_trace_process_to_stage {R : Type} (ops : PipelineOps R)
    (pathValid fileExists : Bool) (path : String) (p : PrintTraceParams)
    (target : ℕ) : PrintTraceResult × Option (R × Contour) :=
  if pathValid = false then (.invalidInput, none)
  else if fileExists = false then (.fileNotFound, none)
  else if print_trace_validate_params p ≠ .success then
    (print_trace_validate_params p, none)
  else
    match processImageToStage ops path (convertParams p) target with
    | .ok rc => (.success, some rc)
    | .error e => (handleException e, none)

/-- C7: `print_trace_validate_params` succeeds iff every parameter lies in
its documented range, both endpoints included, with the Canny aperture in
{3, 5, 7} and the Canny lower threshold strictly below the upper; and when
validation fails, `print_trace_process_to_stage` returns that validation
error with no result — for every pipeline whatsoever, i.e. no image
processing is executed. -/
theorem print_trace_validate_params_spec (p : PrintTraceParams) :
    (print_trace_validate_params p = .success ↔
      (500 ≤ p.warp_size ∧ p.warp_size ≤ 8000 ∧
       10 ≤ p.real_world_size_mm ∧ p.real_world_size_mm ≤ 500 ∧
       10 ≤ p.canny_lower ∧ p.canny_lower ≤ 200 ∧
       50 ≤ p.canny_upper ∧ p.canny_upper ≤ 400 ∧
       p.canny_lower < p.canny_upper ∧
       (p.canny_aperture = 3 ∨ p.canny_aperture = 5 ∨ p.canny_aperture = 7) ∧
       1/2 ≤ p.clahe_clip_limit ∧ p.clahe_clip_limit ≤ 8 ∧
       4 ≤ p.clahe_tile_size ∧ p.clahe_tile_size ≤ 16 ∧
       0 ≤ p.manual_threshold ∧ p.manual_threshold ≤ 255 ∧
       -50 ≤ p.threshold_offset ∧ p.threshold_offset ≤ 50 ∧
       3 ≤ p.morph_kernel_size ∧ p.morph_kernel_size ≤ 15 ∧
       1 ≤ p.contour_merge_distance_mm ∧ p.contour_merge_distance_mm ≤ 20 ∧
       100 ≤ p.min_contour_area ∧ p.min_contour_area ≤ 10000 ∧
       1/10 ≤ p.min_solidity ∧ p.min_solidity ≤ 1 ∧
       2 ≤ p.max_aspect_ratio ∧ p.max_aspect_ratio ≤ 30 ∧
       1/1000 ≤ p.polygon_epsilon_factor ∧ p.polygon_epsilon_factor ≤ 1/50 ∧
       3 ≤ p.corner_win_size ∧ p.corner_win_size ≤ 15 ∧
       50 ≤ p.min_perimeter ∧ p.min_perimeter ≤ 2000 ∧
       0 ≤ p.dilation_amount_mm ∧ p.dilation_amount_mm ≤ 10 ∧
       1/10 ≤ p.smoothing_amount_mm ∧ p.smoothing_amount_mm ≤ 2)) ∧
    (print_trace_validate_params p ≠ .success →
      ∀ (R : Type) (ops : PipelineOps R) (path : String) (target : ℕ),
        print_trace_process_to_stage ops true true path p target =
          (print_trace_validate_params p, none)) := by
  constructor
  · constructor
    · intro hs
      unfold print_trace_validate_params print_trace_get_param_ranges at hs
      dsimp only at hs
      have h1 : ¬ (p.warp_size < 500 ∨ p.warp_size > 8000) := fun hcond => by
        rw [if_pos hcond] at hs; exact absurd hs (by simp)
      rw [if_neg h1] at hs
      have h2 : ¬ (p.real_world_size_mm < 10 ∨ p.real_world_size_mm > 500) := fun hcond => by
        rw [if_pos hcond] at hs; exact absurd hs (by simp)
      rw [if_neg h2] at hs
      have h3 : ¬ (p.canny_lower < 10 ∨ p.canny_lower > 200 ∨ p.canny_upper < 50 ∨
          p.canny_upper > 400 ∨ p.canny_lower ≥ p.canny_upper) := fun hcond => by
        rw [if_pos hcond] at hs; exact absurd hs (by simp)
      rw [if_neg h3] at hs
      have h4 : ¬ ¬ (p.canny_aperture = 3 ∨ p.canny_aperture = 5 ∨ p.canny_aperture = 7) := fun hcond => by
        rw [if_pos hcond] at hs; exact absurd hs (by simp)
      rw [if_neg h4] at hs
      have h5 : ¬ (p.clahe_clip_limit < 1/2 ∨ p.clahe_clip_limit > 8) := fun hcond => by
        rw [if_pos hcond] at hs; exact absurd hs (by simp)
      rw [if_neg h5] at hs
      have h6 : ¬ (p.clahe_tile_size < 4 ∨ p.clahe_tile_size > 16) := fun hcond => by
        rw [if_pos hcond] at hs; exact absurd hs (by simp)
      rw [if_neg h6] at hs
      have h7 : ¬ (p.manual_threshold < 0 ∨ p.manual_threshold > 255) := fun hcond => by
        rw [if_pos hcond] at hs; exact absurd hs (by simp)
      rw [if_neg h7] at hs
      have h8 : ¬ (p.threshold_offset < -50 ∨ p.threshold_offset > 50) := fun hcond => by
        rw [if_pos hcond] at hs; exact absurd hs (by simp)
      rw [if_neg h8] at hs
      have h9 : ¬ (p.morph_kernel_size < 3 ∨ p.morph_kernel_size > 15) := fun hcond => by
        rw [if_pos hcond] at hs; exact absurd hs (by simp)
      rw [if_neg h9] at hs
      have h10 : ¬ (p.contour_merge_distance_mm < 1 ∨ p.contour_merge_distance_mm > 20) := fun hcond => by
        rw [if_pos hcond] at hs; exact absurd hs (by simp)
      rw [if_neg h10] at hs
      have h11 : ¬ (p.min_contour_area < 100 ∨ p.min_contour_area > 10000) := fun hcond => by
        rw [if_pos hcond] at hs; exact absurd hs (by simp)
      rw [if_neg h11] at hs
      have h12 : ¬ (p.min_solidity < 1/10 ∨ p.min_solidity > 1) := fun hcond => by
        rw [if_pos hcond] at hs; exact absurd hs (by simp)
      rw [if_neg h12] at hs
      have h13 : ¬ (p.max_aspect_ratio < 2 ∨ p.max_aspect_ratio > 30) := fun hcond => by
        rw [if_pos hcond] at hs; exact absurd hs (by simp)
      rw [if_neg h13] at hs
      have h14 : ¬ (p.polygon_epsilon_factor < 1/1000 ∨ p.polygon_epsilon_factor > 1/50) := fun hcond => by
        rw [if_pos hcond] at hs; exact absurd hs (by simp)
      rw [if_neg h14] at hs
      have h15 : ¬ (p.corner_win_size < 3 ∨ p.corner_win_size > 15) := fun hcond => by
        rw [if_pos hcond] at hs; exact absurd hs (by simp)
      rw [if_neg h15] at hs
      have h16 : ¬ (p.min_perimeter < 50 ∨ p.min_perimeter > 2000) := fun hcond => by
        rw [if_pos hcond] at hs; exact absurd hs (by simp)
      rw [if_neg h16] at hs
      have h17 : ¬ (p.dilation_amount_mm < 0 ∨ p.dilation_amount_mm > 10) := fun hcond => by
        rw [if_pos hcond] at hs; exact absurd hs (by simp)
      rw [if_neg h17] at hs
      have h18 : ¬ (p.smoothing_amount_mm < 1/10 ∨ p.smoothing_amount_mm > 2) := fun hcond => by
        rw [if_pos hcond] at hs; exact absurd hs (by simp)
      rw [if_neg h18] at hs
      push_neg at h1 h2 h3 h4 h5 h6 h7 h8 h9 h10 h11 h12 h13 h14 h15 h16 h17 h18
      exact ⟨h1.1, h1.2, h2.1, h2.2, h3.1, h3.2.1, h3.2.2.1, h3.2.2.2.1,
        h3.2.2.2.2, h4, h5.1, h5.2, h6.1, h6.2, h7.1, h7.2, h8.1, h8.2,
        h9.1, h9.2, h10.1, h10.2, h11.1, h11.2, h12.1, h12.2, h13.1, h13.2,
        h14.1, h14.2, h15.1, h15.2, h16.1, h16.2, h17.1, h17.2, h18.1, h18.2⟩
    · rintro ⟨a1, a2, b1, b2, c1, c2, c3, c4, c5, d1, e1, e2, f1, f2, g1, g2,
        i1, i2, j1, j2, k1, k2, l1, l2, m1, m2, n1, n2, o1, o2, q1, q2, r1,
        r2, s1, s2, t1, t2⟩
      unfold print_trace_validate_params print_trace_get_param_ranges
      dsimp only
      rw [if_neg (by push_neg; exact ⟨a1, a2⟩),
        if_neg (by push_neg; exact ⟨b1, b2⟩),
        if_neg (by push_neg; exact ⟨c1, c2, c3, c4, c5⟩),
        if_neg (not_not_intro d1),
        if_neg (by push_neg; exact ⟨e1, e2⟩),
        if_neg (by push_neg; exact ⟨f1, f2⟩),
        if_neg (by push_neg; exact ⟨g1, g2⟩),
        if_neg (by push_neg; exact ⟨i1, i2⟩),
        if_neg (by push_neg; exact ⟨j1, j2⟩),
        if_neg (by push_neg; exact ⟨k1, k2⟩),
        if_neg (by push_neg; exact ⟨l1, l2⟩),
        if_neg (by push_neg; exact ⟨m1, m2⟩),
        if_neg (by push_neg; exact ⟨n1, n2⟩),
        if_neg (by push_neg; exact ⟨o1, o2⟩),
        if_neg (by push_neg; exact ⟨q1, q2⟩),
        if_neg (by push_neg; exact ⟨r1, r2⟩),
        if_neg (by push_neg; exact ⟨s1, s2⟩),
        if_neg (by push_neg; exact ⟨t1, t2⟩)]
  · intro hne R ops path target
    unfold print_trace_process_to_stage
    simp [hne]

/-- C7 witness: a warp size of 499 — one unit below the documented minimum
of 500 — is rejected before any processing runs: for the trivial pipeline,
`print_trace_process_to_stage` returns the validation error and no
result. -/
theorem print_trace_validate_params_spec_witness :
    print_trace_process_to_stage unitPipelineOps true true "img.jpg"
        { print_trace_get_default_params with warp_size := 499 } 7 =
      (print_trace_validate_params
        { print_trace_get_default_params with warp_size := 499 }, none) :=
  (print_trace_validate_params_spec
      { print_trace_get_default_params with warp_size := 499 }).2
    (of_decide_eq_true (by with_unfolding_all rfl))
    Unit unitPipelineOps "img.jpg" 7

/-! ## approximatePolygon — Douglas-Peucker simplification
(ImageProcessor.cpp:1629-1636)

`approxPolyDP` is an OpenCV routine, so the simplification itself is
modelled from the spec's glossary description of Douglas-Peucker.  All
distance comparisons are carried out on squared quantities, which is exact
over `ℤ`/`ℚ`; the tolerance parameter `eps2` therefore stands for the
square of the source's `epsilon`. -/

/-- First maximum of a keyed list: `some (index, value)` of the first
element attaining the maximal key, `none` for the empty list.  Models the
farthest-point scan of the Douglas-Peucker recursion. -/
def fm (f : Pt → ℤ) : List Pt → Option (ℕ × ℤ)
  | [] => none
  | p :: ps =>
    match fm f ps with
    | none => some (0, f p)
    | some (j, v) => if f p ≥ v then some (0, f p) else some (j + 1, v)

theorem fm_lt_length (f : Pt → ℤ) (l : List Pt) (j : ℕ) (v : ℤ)
    (h : fm f l = some (j, v)) : j < l.length := by
  induction l generalizing j v with
  | nil => simp [fm] at h
  | cons p ps ih =>
    simp only [fm] at h
    rcases hps : fm f ps with - | ⟨j', v'⟩ <;> rw [hps] at h <;> dsimp only at h
    · simp only [Option.some.injEq, Prod.mk.injEq] at h
      simp [← h.1]
    · by_cases hc : f p ≥ v'
      · rw [if_pos hc] at h
        simp only [Option.some.injEq, Prod.mk.injEq] at h
        simp [← h.1]
      · rw [if_neg hc] at h
        simp only [Option.some.injEq, Prod.mk.injEq] at h
        have := ih j' v' hps
        simp only [List.length_cons, ← h.1]
        omega

theorem fm_val (f : Pt → ℤ) (l : List Pt) (j : ℕ) (v : ℤ)
    (h : fm f l = some (j, v)) : f (l.getD j (0, 0)) = v := by
  induction l generalizing j v with
  | nil => simp [fm] at h
  | cons p ps ih =>
    simp only [fm] at h
    rcases hps : fm f ps with - | ⟨j', v'⟩ <;> rw [hps] at h <;> dsimp only at h
    · simp only [Option.some.injEq, Prod.mk.injEq] at h
      simp [← h.1, h.2]
    · by_cases hc : f p ≥ v'
      · rw [if_pos hc] at h
        simp only [Option.some.injEq, Prod.mk.injEq] at h
        simp [← h.1, h.2]
      · rw [if_neg hc] at h
        simp only [Option.some.injEq, Prod.mk.injEq] at h
        have := ih j' v' hps
        rw [← h.1, ← h.2]
        simpa using this

theorem fm_le (f : Pt → ℤ) (l : List Pt) (j : ℕ) (v : ℤ)
    (h : fm f l = some (j, v)) : ∀ k, k < l.length → f (l.getD k (0, 0)) ≤ v := by
  induction l generalizing j v with
  | nil => simp [fm] at h
  | cons p ps ih =>
    simp only [fm] at h
    intro k hk
    rcases hps : fm f ps with - | ⟨j', v'⟩ <;> rw [hps] at h <;> dsimp only at h
    · simp only [Option.some.injEq, Prod.mk.injEq] at h
      have hps0 : ps = [] := by
        cases ps with
        | nil => rfl
        | cons q qs =>
          exfalso
          rcases hq : fm f (q :: qs) with - | ⟨j2, v2⟩
          · simp only [fm] at hq
            rcases h2 : fm f qs with - | y <;> rw [h2] at hq <;> dsimp only at hq
            · simp at hq
            · by_cases hc : f q ≥ y.2
              · rw [if_pos hc] at hq; simp at hq
              · rw [if_neg hc] at hq; simp at hq
          · rw [hps] at hq; simp at hq
      subst hps0
      simp only [List.length_cons, List.length_nil] at hk
      interval_cases k
      simp [h.2]
    · by_cases hc : f p ≥ v'
      · rw [if_pos hc] at h
        simp only [Option.some.injEq, Prod.mk.injEq] at h
        cases k with
        | zero => simp [h.2]
        | succ k' =>
          simp only [List.length_cons] at hk
          have := ih j' v' hps k' (by omega)
          simp only [List.getD_cons_succ]
          rw [← h.2]
          exact le_trans this hc
      · rw [if_neg hc] at h
        simp only [Option.some.injEq, Prod.mk.injEq] at h
        cases k with
        | zero =>
          simp only [List.getD_cons_zero]
          rw [← h.2]; omega
        | succ k' =>
          simp only [List.length_cons] at hk
          have := ih j' v' hps k' (by omega)
          simp only [List.getD_cons_succ]
          rw [← h.2]
          exact this

theorem fm_first (f : Pt → ℤ) (l : List Pt) (j : ℕ) (v : ℤ)
    (h : fm f l = some (j, v)) : ∀ k, k < j → f (l.getD k (0, 0)) < v := by
  induction l generalizing j v with
  | nil => simp [fm] at h
  | cons p ps ih =>
    simp only [fm] at h
    intro k hk
    rcases hps : fm f ps with - | ⟨j', v'⟩ <;> rw [hps] at h <;> dsimp only at h
    · simp only [Option.some.injEq, Prod.mk.injEq] at h
      omega
    · by_cases hc : f p ≥ v'
      · rw [if_pos hc] at h
        simp only [Option.some.injEq, Prod.mk.injEq] at h
        omega
      · rw [if_neg hc] at h
        simp only [Option.some.injEq, Prod.mk.injEq] at h
        cases k with
        | zero =>
          simp only [List.getD_cons_zero]
          rw [← h.2]; omega
        | succ k' =>
          have := ih j' v' hps k' (by omega)
          simp only [List.getD_cons_succ]
          rw [← h.2]
          exact this

theorem fm_eq_none (f : Pt → ℤ) (l : List Pt) : fm f l = none ↔ l = [] := by
  cases l with
  | nil => simp [fm]
  | cons p ps =>
    simp only [fm]
    rcases hps : fm f ps with - | y <;> dsimp only
    · simp
    · split_ifs <;> simp

/-- Squared deviation numerator of `p` from the chord `a-b`: the squared
cross product.  Comparing `dpDev` against `eps² * chordSq` is exactly
comparing the perpendicular distance of `p` from the line through `a` and
`b` against `eps`, with no square roots. -/
def dpDev (a b p : Pt) : ℤ :=
  ((b.1 - a.1) * (p.2 - a.2) - (b.2 - a.2) * (p.1 - a.1)) ^ 2

/-- Squared length of the chord `a-b`. -/
def chordSq (a b : Pt) : ℤ := (b.1 - a.1) ^ 2 + (b.2 - a.2) ^ 2

/-- Modelled from the spec: the recursive core of Douglas-Peucker
polygon simplification (the spec's glossary: "removes points within a
given perpendicular-distance tolerance of the simplified line"), the
algorithm behind OpenCV `cv::approxPolyDP`, which is not part of this
repository.  `dpAux eps2 a b mid` simplifies the polyline from `a` to `b`
through the interior points `mid`, with `eps2` the squared distance
tolerance: if every interior point lies within tolerance of the chord
`a-b` the chord replaces them, otherwise the polyline is split at the
first farthest interior point and both halves are simplified. -/
def dpAux (eps2 : ℚ) (a b : Pt) (mid : List Pt) : List Pt :=
  match hfm : fm (dpDev a b) mid with
  | none => [a, b]
  | some jv =>
    if (jv.2 : ℚ) ≤ eps2 * (chordSq a b : ℚ) then [a, b]
    else
      dpAux eps2 a (mid.getD jv.1 (0, 0)) (mid.take jv.1) ++
        (dpAux eps2 (mid.getD jv.1 (0, 0)) b (mid.drop (jv.1 + 1))).tail
termination_by mid.length
decreasing_by
  · have hj := fm_lt_length _ _ _ _ hfm
    simp only [List.length_take]
    omega
  · have hj := fm_lt_length _ _ _ _ hfm
    simp only [List.length_drop]
    omega



theorem mem_take_facts (p : Pt) (l : List Pt) (j : ℕ) (hp : p ∈ l.take j) :
    ∃ k, k < j ∧ k < l.length ∧ l.getD k (0, 0) = p := by
  obtain ⟨i, hi, heq⟩ := List.mem_iff_getElem.1 hp
  simp only [List.length_take, lt_min_iff] at hi
  refine ⟨i, hi.1, hi.2, ?_⟩
  rw [List.getD_eq_getElem l (0, 0) hi.2, ← heq, List.getElem_take]

theorem mem_drop_facts (p : Pt) (l : List Pt) (j : ℕ) (hp : p ∈ l.drop j) :
    ∃ k, j ≤ k ∧ k < l.length ∧ l.getD k (0, 0) = p := by
  obtain ⟨i, hi, heq⟩ := List.mem_iff_getElem.1 hp
  simp only [List.length_drop] at hi
  refine ⟨j + i, by omega, by omega, ?_⟩
  rw [List.getD_eq_getElem l (0, 0) (by omega), ← heq, List.getElem_drop]

theorem fm_append_firstmax (f : Pt → ℤ) (outL : List Pt) (x : Pt)
    (outR : List Pt) (v : ℤ) (hx : f x = v)
    (hL : ∀ p ∈ outL, f p < v) (hR : ∀ p ∈ outR, f p ≤ v) :
    fm f (outL ++ x :: outR) = some (outL.length, v) := by
  induction outL with
  | nil =>
    simp only [List.nil_append, fm, List.length_nil]
    rcases hr : fm f outR with - | ⟨j', v'⟩ <;> dsimp only
    · rw [hx]
    · have hj' := fm_lt_length _ _ _ _ hr
      have hv' := fm_val _ _ _ _ hr
      have hmem : outR.getD j' (0, 0) ∈ outR := by
        rw [List.getD_eq_getElem _ _ hj']
        exact List.getElem_mem _
      have : v' ≤ v := hv' ▸ hR _ hmem
      rw [if_pos (by omega : f x ≥ v'), hx]
  | cons q outL' ih =>
    rw [show (q :: outL') ++ x :: outR = q :: (outL' ++ x :: outR) from rfl]
    simp only [fm]
    rw [ih (fun p hp => hL p (by simp [hp]))]
    have hq : f q < v := hL q (by simp)
    dsimp only
    rw [if_neg (by omega : ¬ f q ≥ v)]
    simp

/-- The core invariant: `dpAux` keeps its endpoints, returns a
subsequence of its input, and re-simplifying its own output at any
tolerance at most the original returns the output unchanged. -/
theorem dpAux_spec (eps2 : ℚ) (n : ℕ) :
    ∀ (mid : List Pt) (a b : Pt), mid.length ≤ n →
    ∃ out : List Pt,
      dpAux eps2 a b mid = a :: (out ++ [b]) ∧
      out.Sublist mid ∧
      ∀ eps2' : ℚ, eps2' ≤ eps2 → dpAux eps2' a b out = a :: (out ++ [b]) := by
  induction n with
  | zero =>
    intro mid a b hlen
    have hmid : mid = [] := List.length_eq_zero.1 (Nat.le_zero.1 hlen)
    subst hmid
    refine ⟨[], ?_, by simp, fun eps2' _ => ?_⟩
    · rw [dpAux, show fm (dpDev a b) [] = none from rfl]; simp
    · rw [dpAux, show fm (dpDev a b) [] = none from rfl]; simp
  | succ n ih =>
    intro mid a b hlen
    rcases hfm : fm (dpDev a b) mid with - | ⟨j, v⟩
    · have hmid : mid = [] := (fm_eq_none _ _).1 hfm
      subst hmid
      refine ⟨[], ?_, by simp, fun eps2' _ => ?_⟩
      · rw [dpAux, hfm]; simp
      · rw [dpAux, hfm]; simp
    · have hj := fm_lt_length _ _ _ _ hfm
      have hval := fm_val _ _ _ _ hfm
      by_cases hle : (v : ℚ) ≤ eps2 * (chordSq a b : ℚ)
      · refine ⟨[], ?_, by simp, fun eps2' _ => ?_⟩
        · rw [dpAux, hfm]
          dsimp only
          rw [if_pos hle]
          simp
        · rw [dpAux, show fm (dpDev a b) [] = none from rfl]
          simp
      · obtain ⟨outL, hLeq, hLsub, hLidem⟩ :=
          ih (mid.take j) a (mid.getD j (0, 0))
            (by simp only [List.length_take]; omega)
        obtain ⟨outR, hReq, hRsub, hRidem⟩ :=
          ih (mid.drop (j + 1)) (mid.getD j (0, 0)) b
            (by simp only [List.length_drop]; omega)
        have hmid : mid.take j ++ mid.getD j (0, 0) :: mid.drop (j + 1) = mid := by
          rw [show mid.getD j (0, 0) :: mid.drop (j + 1) = mid.drop j from ?_,
            List.take_append_drop]
          rw [List.getD_eq_getElem _ _ hj]
          exact (List.drop_eq_getElem_cons hj).symm
        refine ⟨outL ++ mid.getD j (0, 0) :: outR, ?_, ?_, ?_⟩
        · rw [dpAux, hfm]
          dsimp only
          rw [if_neg hle, hLeq, hReq]
          simp
        · have hsub2 := List.Sublist.append hLsub (hRsub.cons₂ (mid.getD j (0, 0)))
          rw [hmid] at hsub2
          exact hsub2
        · intro eps2' heps
          have hchord : (0 : ℚ) ≤ (chordSq a b : ℚ) := by
            have : (0 : ℤ) ≤ chordSq a b := by unfold chordSq; positivity
            exact_mod_cast this
          have hle' : ¬ ((v : ℚ) ≤ eps2' * (chordSq a b : ℚ)) := fun hc =>
            hle (hc.trans (mul_le_mul_of_nonneg_right heps hchord))
          have hfm2 : fm (dpDev a b) (outL ++ mid.getD j (0, 0) :: outR) =
              some (outL.length, v) := by
            apply fm_append_firstmax _ _ _ _ _ hval
            · intro p hp
              obtain ⟨k, hk1, hk2, hk3⟩ := mem_take_facts p mid j (hLsub.subset hp)
              have hlt := fm_first _ _ _ _ hfm k hk1
              rw [hk3] at hlt
              exact hlt
            · intro p hp
              obtain ⟨k, hk1, hk2, hk3⟩ :=
                mem_drop_facts p mid (j + 1) (hRsub.subset hp)
              have hlev := fm_le _ _ _ _ hfm k hk2
              rw [hk3] at hlev
              exact hlev
          rw [dpAux, hfm2]
          dsimp only
          rw [if_neg hle']
          have hget : (outL ++ mid.getD j (0, 0) :: outR).getD outL.length (0, 0) =
              mid.getD j (0, 0) := by
            rw [List.getD_eq_getElem _ _ (by simp)]
            rw [List.getElem_append_right (le_refl _)]
            simp
          have htake : (outL ++ mid.getD j (0, 0) :: outR).take outL.length = outL :=
            List.take_left _ _
          have hdrop : (outL ++ mid.getD j (0, 0) :: outR).drop (outL.length + 1) =
              outR := by
            rw [show outL ++ mid.getD j (0, 0) :: outR =
                (outL ++ [mid.getD j (0, 0)]) ++ outR by simp,
              show outL.length + 1 = (outL ++ [mid.getD j (0, 0)]).length by simp]
            exact List.drop_left _ _
          rw [hget, htake, hdrop, hLidem eps2' heps, hRidem eps2' heps]
          simp

/-- Modelled from the spec: `cv::approxPolyDP` on a closed contour,
simplifying the vertex list between its first and last points with
`dpAux`; `eps2` is the squared distance tolerance. -/
def approxPolyDP (eps2 : ℚ) : List Pt → List Pt
  | [] => []
  | [p] => [p]
  | a :: rest => dpAux eps2 a (rest.getLastD (0, 0)) rest.dropLast

theorem approxPolyDP_cons_cons (eps2 : ℚ) (a q : Pt) (t : List Pt) :
    approxPolyDP eps2 (a :: q :: t) =
      dpAux eps2 a ((q :: t).getLastD (0, 0)) (q :: t).dropLast := rfl

theorem approxPolyDP_decomp (eps2 : ℚ) (a z : Pt) (out : List Pt) :
    approxPolyDP eps2 (a :: (out ++ [z])) = dpAux eps2 a z out := by
  cases out with
  | nil => simp [approxPolyDP]
  | cons o out' =>
    rw [show a :: ((o :: out') ++ [z]) = a :: o :: (out' ++ [z]) from rfl,
      approxPolyDP_cons_cons]
    rw [show o :: (out' ++ [z]) = (o :: out') ++ [z] from rfl,
      List.getLastD_concat, List.dropLast_concat]

/-- Idempotence at a fixed tolerance: one application of `approxPolyDP`
reaches a fixed point. -/
theorem approxPolyDP_idem (eps2 : ℚ) (l : List Pt) :
    approxPolyDP eps2 (approxPolyDP eps2 l) = approxPolyDP eps2 l := by
  cases l with
  | nil => rfl
  | cons a rest =>
    cases rest with
    | nil => rfl
    | cons b t =>
      rw [approxPolyDP_cons_cons]
      obtain ⟨out, heq, -, hidem⟩ :=
        dpAux_spec eps2 ((b :: t).dropLast).length ((b :: t).dropLast) a
          ((b :: t).getLastD (0, 0)) (le_refl _)
      rw [heq, approxPolyDP_decomp]
      exact hidem eps2 (le_refl _)

/-- `ImageProcessor::approximatePolygon` (ImageProcessor.cpp:1629-1636):
simplify at a tolerance derived from the contour itself —
`epsilon = epsilonFactor * arcLength(contour, true)` in the source.  The
squared-tolerance assignment `tol` abstracts `(epsilonFactor * perimeter)²`,
whose only property used below is monotonicity under subsequences (true of
the perimeter by the triangle inequality). -/
def approximatePolygon (tol : List Pt → ℚ) (l : List Pt) : List Pt :=
  approxPolyDP (tol l) l

/-- C9: Douglas-Peucker simplification is idempotent — re-simplifying an
already-simplified closed polygon at the same tolerance (the source
recomputes `epsilonFactor * perimeter`, and the perimeter of the
simplified polygon is no larger) returns it unchanged. -/
theorem approximatePolygon_idem (tol : List Pt → ℚ)
    (hmono : ∀ l1 l2 : List Pt, l1.Sublist l2 → tol l1 ≤ tol l2)
    (l : List Pt) :
    approximatePolygon tol (approximatePolygon tol l) =
      approximatePolygon tol l := by
  cases l with
  | nil => rfl
  | cons a rest =>
    cases rest with
    | nil => rfl
    | cons b t =>
      unfold approximatePolygon
      rw [approxPolyDP_cons_cons]
      obtain ⟨out, heq, hsub, hidem⟩ :=
        dpAux_spec (tol (a :: b :: t)) ((b :: t).dropLast).length
          ((b :: t).dropLast) a ((b :: t).getLastD (0, 0)) (le_refl _)
      rw [heq, approxPolyDP_decomp]
      apply hidem
      apply hmono
      have hrest : (b :: t).dropLast ++ [(b :: t).getLastD (0, 0)] = b :: t := by
        rw [List.getLastD_eq_getLast?, List.getLast?_eq_getLast _ (by simp)]
        simp [List.dropLast_append_getLast]
      have h2 := (List.Sublist.append hsub
        (List.Sublist.refl [(b :: t).getLastD (0, 0)])).cons₂ a
      rw [hrest] at h2
      exact h2

/-- A concrete subsequence-monotone tolerance assignment for the C9
witness. -/
def lengthTol (l : List Pt) : ℚ := l.length

/-- C9 witness: simplifying the already-simplified unit-scale square a
second time changes nothing. -/
theorem approximatePolygon_idem_witness :
    approximatePolygon lengthTol (approximatePolygon lengthTol
        [((0:ℤ), (0:ℤ)), (10, 0), (10, 10), (0, 10)]) =
      approximatePolygon lengthTol [((0:ℤ), (0:ℤ)), (10, 0), (10, 10), (0, 10)] :=
  approximatePolygon_idem lengthTol
    (fun l1 l2 h => by
      unfold lengthTol
      exact_mod_cast h.length_le) _
